import Mathlib

/-!
Verification of the ttf-parser core against its specification.

Shallow embedding conventions:
- Rust i16 / u16 values are modelled as ℤ / ℕ; wrap-around arithmetic
  (release-mode overflow semantics) is made explicit through wrap16 /
  reduction modulo 65536, and Rust integer division (which truncates
  toward zero) is Int.tdiv.
- Rust f32 values are modelled as exact rationals (ℚ). Every f32 value
  produced by the code under study is obtained from 16-bit integers by
  casts, sums, products and divisions, all of which we treat exactly.
- Byte buffers are List UInt8, read through a bounds-checked big-endian
  cursor; table-derived views are lists of records.
- Fallible Rust functions returning Option map to Option-valued Lean
  functions; iterators are materialised into lists using an explicit
  fuel argument that dominates the number of iterations the Rust
  iterator can perform, so every definition reduces by computation.
-/

set_option maxRecDepth 100000

namespace TtfParser

/-- Two's-complement wrap-around of a mathematical integer into the
signed 16-bit range, the release-mode result of Rust i16 arithmetic. -/
def wrap16 (z : ℤ) : ℤ := (z + 32768) % 65536 - 32768

/-- The value fits the signed 16-bit range, i.e. the corresponding Rust
i16 arithmetic neither wraps nor panics. -/
def inI16 (z : ℤ) : Prop := -32768 ≤ z ∧ z ≤ 32767

instance (z : ℤ) : Decidable (inI16 z) := by
  unfold inI16; infer_instance

theorem wrap16_eq_self {z : ℤ} (h : inI16 z) : wrap16 z = z := by
  obtain ⟨h1, h2⟩ := h
  unfold wrap16
  omega

/-- Rust i16 subtraction (wrapping, as compiled in release mode). -/
def sub16 (a b : ℤ) : ℤ := wrap16 (a - b)

/-- Rust i16 addition (wrapping, as compiled in release mode). -/
def add16 (a b : ℤ) : ℤ := wrap16 (a + b)

/-- Rust i16 multiplication (wrapping, as compiled in release mode). -/
def mul16 (a b : ℤ) : ℤ := wrap16 (a * b)

/-- Rust i16 division: truncation toward zero. -/
def div16 (a b : ℤ) : ℤ := Int.tdiv a b

/-- Interpretation of a 16-bit big-endian unsigned value as i16. -/
def toSigned16 (n : ℕ) : ℤ := if n < 32768 then (n : ℤ) else (n : ℤ) - 65536

/-- Interpretation of an 8-bit value as i8. -/
def toSigned8 (n : ℕ) : ℤ := if n < 128 then (n : ℤ) else (n : ℤ) - 256

/-! ### Affine transforms (glyf.rs, Transform) -/

/-- Transform from glyf.rs: a 2x3 affine matrix (a b c d e f); the f32
entries are modelled as exact rationals. -/
@[ext]
structure Transform where
  a : ℚ
  b : ℚ
  c : ℚ
  d : ℚ
  e : ℚ
  f : ℚ
deriving DecidableEq

/-- Transform::default from glyf.rs: the identity transform. -/
def Transform.default : Transform := ⟨1, 0, 0, 1, 0, 0⟩

/-- Transform::combine from glyf.rs. -/
def Transform.combine (ts1 ts2 : Transform) : Transform where
  a := ts1.a * ts2.a + ts1.c * ts2.b
  b := ts1.b * ts2.a + ts1.d * ts2.b
  c := ts1.a * ts2.c + ts1.c * ts2.d
  d := ts1.b * ts2.c + ts1.d * ts2.d
  e := ts1.a * ts2.e + ts1.c * ts2.f + ts1.e
  f := ts1.b * ts2.e + ts1.d * ts2.f + ts1.f

/-- Transform::apply_to from glyf.rs. -/
def Transform.apply (t : Transform) (x y : ℚ) : ℚ × ℚ :=
  (t.a * x + t.c * y + t.e, t.b * x + t.d * y + t.f)

/-- Transform::is_default from glyf.rs. -/
def Transform.is_default (t : Transform) : Bool :=
  decide (t.a = 1 ∧ t.b = 0 ∧ t.c = 0 ∧ t.d = 1 ∧ t.e = 0 ∧ t.f = 0)

/-! ### Region tents (var_store.rs, RegionAxisCoordinatesRecord::evaluate_axis) -/

/-- RegionAxisCoordinatesRecord from the raw mvar table: a (start, peak,
end) triple of F2DOT14 values, kept in raw i16 form. -/
structure RegionAxisCoordinatesRecord where
  start_coord : ℤ
  peak_coord : ℤ
  end_coord : ℤ
deriving DecidableEq

/-- RegionAxisCoordinatesRecord::evaluate_axis from var_store.rs, with
the f32 arithmetic modelled exactly over ℚ. -/
def evaluate_axis (start peak endc coord : ℤ) : ℚ :=
  if start > peak ∨ peak > endc then 1
  else if start < 0 ∧ endc > 0 ∧ peak ≠ 0 then 1
  else if peak = 0 ∨ coord = peak then 1
  else if coord ≤ start ∨ endc ≤ coord then 0
  else if coord < peak then
    ((coord - start : ℤ) : ℚ) / ((peak - start : ℤ) : ℚ)
  else
    ((endc - coord : ℤ) : ℚ) / ((endc - peak : ℤ) : ℚ)

/-! ### Axis value maps (avar.rs) -/

/-- AxisValueMapRecord from avar.rs. -/
structure AxisValueMapRecord where
  from_coordinate : ℤ
  to_coordinate : ℤ
deriving DecidableEq

/-- Indexing into the lazy record array; the source only indexes in
bounds, so the default record is never produced on the paths taken. -/
def recAt (map : List AxisValueMapRecord) (i : ℕ) : AxisValueMapRecord :=
  map.getD i ⟨0, 0⟩

/-- The scanning loop of map_value in avar.rs: starting at index i,
advance while the current record's from_coordinate is below value. The
fuel dominates the number of iterations (at most map.length). -/
def scan_index (map : List AxisValueMapRecord) (value : ℤ) : ℕ → ℕ → ℕ
  | 0, i => i
  | fuel + 1, i =>
    if i < map.length ∧ (recAt map i).from_coordinate < value then
      scan_index map value fuel (i + 1)
    else i

/-- map_value from avar.rs, with release-mode (wrapping) i16 arithmetic
made explicit. -/
def map_value (map : List AxisValueMapRecord) (value : ℤ) : ℤ :=
  if map.length = 0 then value
  else if map.length = 1 then
    let record := recAt map 0
    add16 (sub16 value record.from_coordinate) record.to_coordinate
  else
    let record_0 := recAt map 0
    if value ≤ record_0.from_coordinate then
      add16 (sub16 value record_0.from_coordinate) record_0.to_coordinate
    else
      let i0 := scan_index map value map.length 1
      let i := if i0 = map.length then i0 - 1 else i0
      let record_i := recAt map i
      if record_i.from_coordinate ≤ value then
        add16 (sub16 value record_i.from_coordinate) record_i.to_coordinate
      else
        let record_prev := recAt map (i - 1)
        if record_prev.from_coordinate = record_i.from_coordinate then
          record_prev.to_coordinate
        else
          let denom := sub16 record_i.from_coordinate record_prev.from_coordinate
          add16 record_prev.to_coordinate
            (div16
              (add16
                (mul16 (sub16 record_i.to_coordinate record_prev.to_coordinate)
                  (sub16 value record_prev.from_coordinate))
                (div16 denom 2))
              denom)

/-! ### Variation region lists (var_store.rs) -/

/-- VariationRegionList from var_store.rs: the axis count together with
the lazily parsed record array (here fully materialised). -/
structure VariationRegionList where
  axis_count : ℕ
  regions : List RegionAxisCoordinatesRecord

/-- The loop body of VariationRegionList::evaluate_region: iterate over
the caller-supplied coordinates, looking the record up at the wrapping
u16 index index * axis_count + i. -/
def vrl_loop (r : VariationRegionList) (index : ℕ) :
    List ℤ → ℕ → ℚ → ℚ
  | [], _, v => v
  | coord :: rest, i, v =>
    match r.regions.get? ((index * r.axis_count + i) % 65536) with
    | none => 0
    | some region =>
      let factor := evaluate_axis region.start_coord region.peak_coord
        region.end_coord coord
      if factor = 0 then 0 else vrl_loop r index rest (i + 1) (v * factor)

/-- VariationRegionList::evaluate_region from var_store.rs. -/
def VariationRegionList.evaluate_region (r : VariationRegionList)
    (index : ℕ) (coordinates : List ℤ) : ℚ :=
  vrl_loop r index coordinates 0 1

/-- C8: composition of affine transforms as performed for nested
composite glyphs (Transform::combine) is associative. -/
theorem transform_combine_assoc (t1 t2 t3 : Transform) :
    Transform.combine (Transform.combine t1 t2) t3 =
      Transform.combine t1 (Transform.combine t2 t3) := by
  ext <;> simp only [Transform.combine] <;> ring

/-- C5 counterexample: for the non-degenerate record (start, peak, end)
= (5, 5, 10) (start ≤ peak ≤ end, peak ≠ 0, not straddling zero) and
coordinate c = 5 with c ≤ start, the claim says the tent factor is 0,
but evaluate_axis returns 1 (the c == peak test fires first). -/
theorem evaluate_axis_boundary_counterexample :
    ((5 : ℤ) ≤ 5 ∧ (5 : ℤ) ≤ 10 ∧ (5 : ℤ) ≠ 0 ∧ ¬((5 : ℤ) < 0 ∧ (0 : ℤ) < 10) ∧
      ((5 : ℤ) ≤ 5 ∨ (10 : ℤ) ≤ 5)) ∧
    evaluate_axis 5 5 10 5 ≠ 0 := by
  constructor
  · norm_num
  · norm_num [evaluate_axis]

/-- C5 amended: for a non-degenerate axis record, the factor is 0 on
coordinates outside (start, end) other than the peak itself, 1 at the
peak, and linear on each side of the peak strictly inside the tent. -/
theorem evaluate_axis_tent (start peak endc c : ℤ)
    (h1 : start ≤ peak) (h2 : peak ≤ endc) (h3 : peak ≠ 0)
    (h4 : ¬(start < 0 ∧ 0 < endc)) :
    (c ≠ peak → c ≤ start ∨ endc ≤ c → evaluate_axis start peak endc c = 0) ∧
    (c = peak → evaluate_axis start peak endc c = 1) ∧
    (start < c → c < peak →
      evaluate_axis start peak endc c = ((c - start : ℤ) : ℚ) / ((peak - start : ℤ) : ℚ)) ∧
    (peak < c → c < endc →
      evaluate_axis start peak endc c = ((endc - c : ℤ) : ℚ) / ((endc - peak : ℤ) : ℚ)) := by
  unfold evaluate_axis
  refine ⟨?_, ?_, ?_, ?_⟩
  · intro hne hout
    split_ifs <;> first | rfl | omega
  · intro hc
    split_ifs <;> first | rfl | omega
  · intro hl hr
    split_ifs <;> first | rfl | omega
  · intro hl hr
    split_ifs <;> first | rfl | omega

/-- C5 amended, witnessed at the record (1, 2, 4) and coordinates 1 and
3, exercising the zero branch and the descending linear branch. -/
theorem evaluate_axis_tent_witness :
    (((1 : ℤ) ≤ 2 ∧ (2 : ℤ) ≤ 4 ∧ (2 : ℤ) ≠ 0 ∧ ¬((1 : ℤ) < 0 ∧ (0 : ℤ) < 4)) ∧
      evaluate_axis 1 2 4 1 = 0) ∧
    evaluate_axis 1 2 4 3 = ((4 - 3 : ℤ) : ℚ) / ((4 - 2 : ℤ) : ℚ) := by
  refine ⟨⟨by norm_num, ?_⟩, ?_⟩
  · exact (evaluate_axis_tent 1 2 4 1 (by norm_num) (by norm_num) (by norm_num)
      (by norm_num)).1 (by norm_num) (by norm_num)
  · exact (evaluate_axis_tent 1 2 4 3 (by norm_num) (by norm_num) (by norm_num)
      (by norm_num)).2.2.2 (by norm_num) (by norm_num)

/-- C1: the i16 interpolation arithmetic of avar's map_value and the
u16 index arithmetic of the variation-region evaluator do overflow on
adversarial table data. For the single-record segment map (from 1, to 0)
and coordinate -32768, the exact value of value - from + to is -32769,
outside i16, and the wrapping computation yields 32767 instead; for a
region list with axis_count 16384 and region index 4, the u16 product
4 * 16384 = 65536 wraps to 0, so the evaluator reads region record 0 and
produces weight 1 even though mathematical index 65536 is out of range
(which the code would turn into weight 0). -/
theorem arithmetic_overflow_on_adversarial_tables :
    (¬ inI16 ((-32768 : ℤ) - 1 + 0) ∧
      map_value [⟨1, 0⟩] (-32768) = 32767 ∧
      map_value [⟨1, 0⟩] (-32768) ≠ (-32768 : ℤ) - 1 + 0) ∧
    ((4 * 16384) % 65536 = 0 ∧ 4 * 16384 ≠ 0 ∧
      ([(⟨1, 2, 3⟩ : RegionAxisCoordinatesRecord)].get? (4 * 16384) = none) ∧
      VariationRegionList.evaluate_region ⟨16384, [⟨1, 2, 3⟩]⟩ 4 [2] = 1) := by
  refine ⟨⟨by decide, by decide, by decide⟩, by norm_num, by norm_num, by decide, ?_⟩
  show vrl_loop ⟨16384, [⟨1, 2, 3⟩]⟩ 4 [2] 0 1 = 1
  norm_num [vrl_loop, evaluate_axis]

/-- C6 counterexample: for the single-record segment map (from 1, to 0)
and coordinate -32768 (which satisfies v ≤ first.from), the claimed
exact-integer result v + (first.to − first.from) = -32769 is not what
map_value returns: the i16 arithmetic wraps and yields 32767. -/
theorem map_value_exact_arith_counterexample :
    ((-32768 : ℤ) ≤ 1) ∧
    map_value [⟨1, 0⟩] (-32768) ≠ (-32768 : ℤ) + (0 - 1) := by
  constructor
  · decide
  · decide

/-- The spec's interpolation formula for a bracketing pair, in exact
integer arithmetic with Rust's truncating division:
prev.to + ((next.to − prev.to)·(v − prev.from) + denom/2) / denom. -/
def interpolate (prev next : AxisValueMapRecord) (v : ℤ) : ℤ :=
  prev.to_coordinate +
    Int.tdiv
      ((next.to_coordinate - prev.to_coordinate) * (v - prev.from_coordinate) +
        Int.tdiv (next.from_coordinate - prev.from_coordinate) 2)
      (next.from_coordinate - prev.from_coordinate)

theorem add16_sub16_exact {a b c : ℤ} (h1 : inI16 (a - b)) (h2 : inI16 (a - b + c)) :
    add16 (sub16 a b) c = a - b + c := by
  unfold add16 sub16
  rw [wrap16_eq_self h1, wrap16_eq_self h2]

/-- The scanning loop of map_value stops at the least index k with
value ≤ from_k (or at the length of the map when there is none),
provided the fuel covers the distance. -/
theorem scan_index_eq (map : List AxisValueMapRecord) (value : ℤ) (k : ℕ)
    (hstop : k = map.length ∨ value ≤ (recAt map k).from_coordinate) :
    ∀ fuel i, k ≤ i + fuel → i ≤ k → k ≤ map.length →
      (∀ m, i ≤ m → m < k → (recAt map m).from_coordinate < value) →
      scan_index map value fuel i = k := by
  intro fuel
  induction fuel with
  | zero =>
    intro i h1 h2 _ _
    have : i = k := by omega
    simpa [scan_index] using this
  | succ n ih =>
    intro i h1 h2 hk hcont
    by_cases hik : i = k
    · subst hik
      unfold scan_index
      rw [if_neg]
      rcases hstop with h | h
      · omega
      · intro hc
        exact absurd hc.2 (not_lt.mpr h)
    · have hlt : i < k := lt_of_le_of_ne h2 hik
      unfold scan_index
      rw [if_pos ⟨by omega, hcont i le_rfl hlt⟩]
      exact ih (i + 1) (by omega) (by omega) hk (fun m hm1 hm2 => hcont m (by omega) hm2)

/-- C6 amended: against a non-empty segment map strictly sorted by
from_coordinate, and provided every i16 intermediate stays in range,
map_value returns v + (first.to − first.from) when v ≤ first.from,
v + (last.to − last.from) when v ≥ last.from, next.to when v equals the
from of an intermediate record, and otherwise the rounding-biased
interpolation between the bracketing records with Rust's truncating
division; an empty map returns v unchanged. (The degenerate-bracket
branch of the source is unreachable for sorted maps.) -/
theorem map_value_characterization (map : List AxisValueMapRecord) (value : ℤ)
    (hsorted : List.Pairwise (fun r s => r.from_coordinate < s.from_coordinate) map)
    (hrec : ∀ r ∈ map, inI16 r.from_coordinate ∧ inI16 r.to_coordinate)
    (hdiff : ∀ r ∈ map, inI16 (value - r.from_coordinate) ∧
      inI16 (value - r.from_coordinate + r.to_coordinate))
    (hinterp : List.Chain' (fun p q =>
      inI16 (q.from_coordinate - p.from_coordinate) ∧
      inI16 (q.to_coordinate - p.to_coordinate) ∧
      inI16 ((q.to_coordinate - p.to_coordinate) * (value - p.from_coordinate)) ∧
      inI16 ((q.to_coordinate - p.to_coordinate) * (value - p.from_coordinate) +
        Int.tdiv (q.from_coordinate - p.from_coordinate) 2) ∧
      inI16 (p.to_coordinate + Int.tdiv
        ((q.to_coordinate - p.to_coordinate) * (value - p.from_coordinate) +
          Int.tdiv (q.from_coordinate - p.from_coordinate) 2)
        (q.from_coordinate - p.from_coordinate))) map) :
    (map = [] → map_value map value = value) ∧
    (0 < map.length → value ≤ (recAt map 0).from_coordinate →
      map_value map value =
        value - (recAt map 0).from_coordinate + (recAt map 0).to_coordinate) ∧
    (0 < map.length → (recAt map (map.length - 1)).from_coordinate ≤ value →
      map_value map value =
        value - (recAt map (map.length - 1)).from_coordinate +
          (recAt map (map.length - 1)).to_coordinate) ∧
    (∀ j, 0 < j → j + 1 < map.length → value = (recAt map j).from_coordinate →
      map_value map value = (recAt map j).to_coordinate) ∧
    (∀ j, j + 1 < map.length → (recAt map j).from_coordinate < value →
      value < (recAt map (j + 1)).from_coordinate →
      map_value map value = interpolate (recAt map j) (recAt map (j + 1)) value) := by
  have hmem : ∀ k, k < map.length → recAt map k ∈ map := by
    intro k hk
    rw [recAt, List.getD_eq_getElem _ _ hk]
    exact List.getElem_mem hk
  have hmono : ∀ j k, j < k → k < map.length →
      (recAt map j).from_coordinate < (recAt map k).from_coordinate := by
    intro j k hjk hk
    have hj : j < map.length := by omega
    rw [recAt, List.getD_eq_getElem _ _ hj, recAt, List.getD_eq_getElem _ _ hk]
    exact List.pairwise_iff_getElem.mp hsorted j k hj hk hjk
  have hchain : ∀ j, j + 1 < map.length →
      inI16 ((recAt map (j + 1)).from_coordinate - (recAt map j).from_coordinate) ∧
      inI16 ((recAt map (j + 1)).to_coordinate - (recAt map j).to_coordinate) ∧
      inI16 (((recAt map (j + 1)).to_coordinate - (recAt map j).to_coordinate) *
        (value - (recAt map j).from_coordinate)) ∧
      inI16 (((recAt map (j + 1)).to_coordinate - (recAt map j).to_coordinate) *
        (value - (recAt map j).from_coordinate) +
        Int.tdiv ((recAt map (j + 1)).from_coordinate - (recAt map j).from_coordinate) 2) ∧
      inI16 ((recAt map j).to_coordinate + Int.tdiv
        (((recAt map (j + 1)).to_coordinate - (recAt map j).to_coordinate) *
          (value - (recAt map j).from_coordinate) +
          Int.tdiv ((recAt map (j + 1)).from_coordinate - (recAt map j).from_coordinate) 2)
        ((recAt map (j + 1)).from_coordinate - (recAt map j).from_coordinate)) := by
    intro j hj
    have hjlen : j < map.length := by omega
    have h1 : j < map.length - 1 := by omega
    have hthis := List.chain'_iff_get.mp hinterp j h1
    have egj : recAt map j = map.get ⟨j, hjlen⟩ := by
      rw [recAt, List.getD_eq_getElem _ _ hjlen, List.get_eq_getElem]
    have egj1 : recAt map (j + 1) = map.get ⟨j + 1, hj⟩ := by
      rw [recAt, List.getD_eq_getElem _ _ hj, List.get_eq_getElem]
    rw [egj, egj1]
    exact hthis
  refine ⟨?_, ?_, ?_, ?_, ?_⟩
  · intro h
    simp [map_value, h]
  · intro hlen hle
    have hd := hdiff _ (hmem 0 hlen)
    by_cases h1 : map.length = 1
    · simp only [map_value]
      rw [if_neg (by omega), if_pos h1]
      exact add16_sub16_exact hd.1 hd.2
    · simp only [map_value]
      rw [if_neg (by omega), if_neg h1, if_pos hle]
      exact add16_sub16_exact hd.1 hd.2
  · intro hlen hge
    have hd := hdiff _ (hmem (map.length - 1) (by omega))
    by_cases h1 : map.length = 1
    · have hidx : map.length - 1 = 0 := by omega
      rw [hidx]
      simp only [map_value]
      rw [if_neg (by omega), if_pos h1]
      rw [hidx] at hd
      exact add16_sub16_exact hd.1 hd.2
    · have hlen2 : 2 ≤ map.length := by omega
      have hnotle : ¬ value ≤ (recAt map 0).from_coordinate := by
        have := hmono 0 (map.length - 1) (by omega) (by omega)
        omega
      have hscan : scan_index map value map.length 1 = map.length - 1 ∨
          scan_index map value map.length 1 = map.length := by
        by_cases hv : value ≤ (recAt map (map.length - 1)).from_coordinate
        · left
          refine scan_index_eq map value (map.length - 1) (Or.inr hv)
            map.length 1 (by omega) (by omega) (by omega) ?_
          intro m hm1 hm2
          have := hmono m (map.length - 1) (by omega) (by omega)
          omega
        · right
          refine scan_index_eq map value map.length (Or.inl rfl)
            map.length 1 (by omega) (by omega) le_rfl ?_
          intro m hm1 hm2
          by_cases hml : m = map.length - 1
          · subst hml; omega
          · have := hmono m (map.length - 1) (by omega) (by omega)
            omega
      have hITE : (if scan_index map value map.length 1 = map.length then
          scan_index map value map.length 1 - 1 else scan_index map value map.length 1) =
          map.length - 1 := by
        rcases hscan with hs | hs
        · rw [hs, if_neg (by omega)]
        · rw [hs, if_pos rfl]
      simp only [map_value]
      rw [if_neg (by omega), if_neg h1, if_neg hnotle, hITE, if_pos hge]
      exact add16_sub16_exact hd.1 hd.2
  · intro j hj0 hjlen hveq
    have hd := hdiff _ (hmem j (by omega))
    have ht := hrec _ (hmem j (by omega))
    have hscan : scan_index map value map.length 1 = j := by
      refine scan_index_eq map value j (Or.inr (le_of_eq hveq))
        map.length 1 (by omega) (by omega) (by omega) ?_
      intro m hm1 hm2
      have := hmono m j hm2 (by omega)
      omega
    have hITE : (if scan_index map value map.length 1 = map.length then
        scan_index map value map.length 1 - 1 else scan_index map value map.length 1) = j := by
      rw [hscan, if_neg (by omega)]
    simp only [map_value]
    rw [if_neg (by omega), if_neg (by omega),
      if_neg (show ¬ value ≤ (recAt map 0).from_coordinate by
        have := hmono 0 j (by omega) (by omega)
        omega),
      hITE, if_pos (le_of_eq hveq.symm)]
    rw [show sub16 value (recAt map j).from_coordinate = 0 by
      unfold sub16
      rw [hveq, sub_self]
      decide]
    unfold add16
    rw [zero_add, wrap16_eq_self ht.2]
  · intro j hjlen hjlt hjgt
    have hF := hmono j (j + 1) (by omega) (by omega)
    have hd := hdiff _ (hmem j (by omega))
    have hc := hchain j hjlen
    have hscan : scan_index map value map.length 1 = j + 1 := by
      refine scan_index_eq map value (j + 1) (Or.inr (le_of_lt hjgt))
        map.length 1 (by omega) (by omega) (by omega) ?_
      intro m hm1 hm2
      by_cases hmj : m = j
      · subst hmj; omega
      · have := hmono m j (by omega) (by omega)
        omega
    have hITE : (if scan_index map value map.length 1 = map.length then
        scan_index map value map.length 1 - 1 else scan_index map value map.length 1) =
        j + 1 := by
      rw [hscan, if_neg (by omega)]
    simp only [map_value]
    rw [if_neg (by omega), if_neg (by omega),
      if_neg (show ¬ value ≤ (recAt map 0).from_coordinate by
        by_cases hj0 : j = 0
        · subst hj0; omega
        · have := hmono 0 j (by omega) (by omega)
          omega),
      hITE, Nat.add_sub_cancel, if_neg (by omega), if_neg (by omega)]
    unfold sub16 mul16 add16 div16
    rw [wrap16_eq_self hc.1, wrap16_eq_self hc.2.1, wrap16_eq_self hd.1,
      wrap16_eq_self hc.2.2.1, wrap16_eq_self hc.2.2.2.1, wrap16_eq_self hc.2.2.2.2]
    rfl

/-- Concrete three-record segment map used to witness the amended C6
characterization. -/
def mapW : List AxisValueMapRecord := [⟨0, 10⟩, ⟨100, 110⟩, ⟨200, 190⟩]

/-- C6 amended, witnessed on a strictly sorted three-record map at the
interior coordinate 50, where map_value interpolates between the first
two records and yields 60. -/
theorem map_value_characterization_witness :
    ((recAt mapW 0).from_coordinate < 50 ∧ (50 : ℤ) < (recAt mapW 1).from_coordinate) ∧
    map_value mapW 50 = interpolate (recAt mapW 0) (recAt mapW 1) 50 ∧
    map_value mapW 50 = 60 :=
  ⟨by decide,
   (map_value_characterization mapW 50 (by decide) (by decide) (by decide)
      (List.chain'_cons.mpr ⟨by decide,
        List.chain'_cons.mpr ⟨by decide, List.chain'_singleton _⟩⟩)).2.2.2.2
     0 (by decide) (by decide) (by decide),
   by decide⟩

/-! ### Outline construction (glyf.rs, Builder) -/

/-- Draw commands received by the caller-supplied OutlineBuilder; only
move/line/quad/close are emitted by the glyf path. -/
inductive DrawCmd
  | move (x y : ℚ)
  | line (x y : ℚ)
  | quad (x1 y1 x y : ℚ)
  | close
deriving DecidableEq

/-- Point from glyf.rs (f32 pair, modelled as exact rationals). -/
structure Point where
  x : ℚ
  y : ℚ
deriving DecidableEq

/-- Point::lerp from glyf.rs. -/
def Point.lerp (p other : Point) (t : ℚ) : Point :=
  ⟨p.x + t * (other.x - p.x), p.y + t * (other.y - p.y)⟩

/-- BBox from lib.rs (f32 bounds, modelled as exact rationals). -/
structure BBox where
  x_min : ℚ
  y_min : ℚ
  x_max : ℚ
  y_max : ℚ
deriving DecidableEq

/-- BBox::extend_by from lib.rs. -/
def BBox.extend_by (b : BBox) (x y : ℚ) : BBox :=
  ⟨min b.x_min x, min b.y_min y, max b.x_max x, max b.y_max y⟩

/-- Builder from glyf.rs; the receiver (the dyn OutlineBuilder) is
modelled as the list of commands emitted so far, in order. -/
structure Builder where
  transform : Transform
  is_default_ts : Bool
  bbox : Option BBox
  first_oncurve : Option Point
  first_offcurve : Option Point
  last_offcurve : Option Point
  cmds : List DrawCmd

/-- Builder::new from glyf.rs: fresh contour slots over an existing
receiver (command list). -/
def Builder.new (transform : Transform) (bbox : Option BBox) (cmds : List DrawCmd) : Builder :=
  ⟨transform, transform.is_default, bbox, none, none, none, cmds⟩

/-- The shared bbox-extension step of move_to / line_to / quad_to. -/
def Builder.do_bbox (b : Builder) (x y : ℚ) : Builder :=
  match b.bbox with
  | some bb => { b with bbox := some (bb.extend_by x y) }
  | none => b

/-- Builder::move_to from glyf.rs. -/
def Builder.move_to (b : Builder) (x y : ℚ) : Builder :=
  let p := if ¬ b.is_default_ts then b.transform.apply x y else (x, y)
  let b := b.do_bbox p.1 p.2
  { b with cmds := b.cmds ++ [DrawCmd.move p.1 p.2] }

/-- Builder::line_to from glyf.rs. -/
def Builder.line_to (b : Builder) (x y : ℚ) : Builder :=
  let p := if ¬ b.is_default_ts then b.transform.apply x y else (x, y)
  let b := b.do_bbox p.1 p.2
  { b with cmds := b.cmds ++ [DrawCmd.line p.1 p.2] }

/-- Builder::quad_to from glyf.rs. -/
def Builder.quad_to (b : Builder) (x1 y1 x y : ℚ) : Builder :=
  let p1 := if ¬ b.is_default_ts then b.transform.apply x1 y1 else (x1, y1)
  let p := if ¬ b.is_default_ts then b.transform.apply x y else (x, y)
  let b := b.do_bbox p1.1 p1.2
  let b := b.do_bbox p.1 p.2
  { b with cmds := b.cmds ++ [DrawCmd.quad p1.1 p1.2 p.1 p.2] }

/-- Builder::close from glyf.rs: forward the close to the receiver. -/
def Builder.close_cmd (b : Builder) : Builder :=
  { b with cmds := b.cmds ++ [DrawCmd.close] }

/-- Builder::finish_contour from glyf.rs, transcribed exactly: note
that the source calls self.close() both before and after resetting the
three contour slots. -/
def Builder.finish_contour (b : Builder) : Builder :=
  let b :=
    match b.first_offcurve, b.last_offcurve with
    | some offcurve1, some offcurve2 =>
      let b' := { b with last_offcurve := (none : Option Point) }
      let mid := offcurve2.lerp offcurve1 (1 / 2)
      b'.quad_to offcurve2.x offcurve2.y mid.x mid.y
    | _, _ => b
  let b :=
    match b.first_oncurve, b.first_offcurve, b.last_offcurve with
    | some p, some offcurve1, _ => b.quad_to offcurve1.x offcurve1.y p.x p.y
    | some p, none, some offcurve2 => b.quad_to offcurve2.x offcurve2.y p.x p.y
    | some p, none, none => b.line_to p.x p.y
    | none, _, _ => b
  let b := b.close_cmd
  let b := { b with first_oncurve := (none : Option Point),
                    first_offcurve := (none : Option Point),
                    last_offcurve := (none : Option Point) }
  b.close_cmd

/-- Builder::push_point from glyf.rs. -/
def Builder.push_point (b : Builder) (x y : ℚ) (on_curve_point last_point : Bool) : Builder :=
  let p : Point := ⟨x, y⟩
  let b :=
    if b.first_oncurve.isNone then
      if on_curve_point then
        ({ b with first_oncurve := some p } : Builder).move_to p.x p.y
      else
        match b.first_offcurve with
        | some offcurve =>
          let mid := offcurve.lerp p (1 / 2)
          ({ b with first_oncurve := some mid,
                    last_offcurve := some p } : Builder).move_to mid.x mid.y
        | none => { b with first_offcurve := some p }
    else
      match b.last_offcurve, on_curve_point with
      | some offcurve, true =>
        ({ b with last_offcurve := (none : Option Point) } : Builder).quad_to
          offcurve.x offcurve.y p.x p.y
      | some offcurve, false =>
        let mid := offcurve.lerp p (1 / 2)
        ({ b with last_offcurve := some p } : Builder).quad_to
          offcurve.x offcurve.y mid.x mid.y
      | none, true => b.line_to p.x p.y
      | none, false => { b with last_offcurve := some p }
  if last_point then b.finish_contour else b

/-- The rectangle contour of the claim, pushed point by point as the
simple-glyph path does (all points on-curve, the fourth flagged as the
last point of the contour). -/
def rect_builder : Builder :=
  ((((Builder.new Transform.default none []).push_point 50 0 true false).push_point
      50 750 true false).push_point 450 750 true false).push_point 450 0 true true

/-- C2: translating the rectangle contour (50,0)-(450,750) emits the
expected moves and lines but then close appears twice, not once:
finish_contour forwards close() both before and after resetting its
slots (the crate's own doc-test expects a single close). -/
theorem finish_contour_double_close :
    rect_builder.cmds =
      [DrawCmd.move 50 0, DrawCmd.line 50 750, DrawCmd.line 450 750,
        DrawCmd.line 450 0, DrawCmd.line 50 0, DrawCmd.close, DrawCmd.close] ∧
    rect_builder.cmds.count DrawCmd.close = 2 := by
  constructor
  · with_unfolding_all decide
  · with_unfolding_all decide

/-! ### Byte streams (parser.rs) -/

/-- Modelled from the spec: parser::Stream (src/parser.rs is not among
the sources), the bounds-checked big-endian cursor of spec section 4.1;
every read either returns the value and the advanced cursor or fails,
and no successful read references bytes outside the buffer. -/
structure Stream where
  data : List UInt8
  offset : ℕ

/-- Stream::new. -/
def Stream.new (d : List UInt8) : Stream := ⟨d, 0⟩

/-- Stream::read for u8. -/
def Stream.read_u8 (s : Stream) : Option (ℕ × Stream) :=
  match s.data.get? s.offset with
  | some b => some (b.toNat, ⟨s.data, s.offset + 1⟩)
  | none => none

/-- Stream::read for u16 (big-endian). -/
def Stream.read_u16 (s : Stream) : Option (ℕ × Stream) :=
  match s.data.get? s.offset, s.data.get? (s.offset + 1) with
  | some b0, some b1 => some (b0.toNat * 256 + b1.toNat, ⟨s.data, s.offset + 2⟩)
  | _, _ => none

/-- Stream::read for u32 (big-endian). -/
def Stream.read_u32 (s : Stream) : Option (ℕ × Stream) :=
  match s.read_u16 with
  | some (hi, s1) =>
    match s1.read_u16 with
    | some (lo, s2) => some (hi * 65536 + lo, s2)
    | none => none
  | none => none

/-- Stream::read for i16 (big-endian, two's complement). -/
def Stream.read_i16 (s : Stream) : Option (ℤ × Stream) :=
  match s.read_u16 with
  | some (v, s1) => some (toSigned16 v, s1)
  | none => none

/-- Stream::read for i8. -/
def Stream.read_i8 (s : Stream) : Option (ℤ × Stream) :=
  match s.read_u8 with
  | some (v, s1) => some (toSigned8 v, s1)
  | none => none

/-- Stream::advance: moves the cursor without checking (subsequent
reads fail if it went past the end). -/
def Stream.advance (s : Stream) (n : ℕ) : Stream := ⟨s.data, s.offset + n⟩

/-- Stream::tail: the remaining bytes, when the cursor is in bounds. -/
def Stream.tail (s : Stream) : Option (List UInt8) :=
  if s.offset ≤ s.data.length then some (s.data.drop s.offset) else none

/-- Stream::at_end. -/
def Stream.at_end (s : Stream) : Bool := s.data.length ≤ s.offset

/-- Rust slice indexing data.get(a..b): the sub-slice when in bounds. -/
def slice (data : List UInt8) (a b : ℕ) : Option (List UInt8) :=
  if a ≤ b ∧ b ≤ data.length then some ((data.drop a).take (b - a)) else none

/-- F2DOT14::to_float: a raw i16 read as a 2.14 fixed-point value. -/
def f2dot14 (raw : ℤ) : ℚ := (raw : ℚ) / 16384

/-- f32_bound from glyf.rs. -/
def f32_bound (min_v val max_v : ℚ) : ℚ :=
  if val > max_v then max_v else if val < min_v then min_v else val

/-! ### Simple glyph decoding (glyf.rs) -/

/-- SimpleGlyphFlags::on_curve_point. -/
def on_curve_point (f : ℕ) : Bool := f.testBit 0

/-- SimpleGlyphFlags::x_short. -/
def x_short (f : ℕ) : Bool := f.testBit 1

/-- SimpleGlyphFlags::y_short. -/
def y_short (f : ℕ) : Bool := f.testBit 2

/-- SimpleGlyphFlags::repeat_flag. -/
def repeat_flag (f : ℕ) : Bool := f.testBit 3

/-- SimpleGlyphFlags::x_is_same_or_positive_short. -/
def x_is_same_or_positive_short (f : ℕ) : Bool := f.testBit 4

/-- SimpleGlyphFlags::y_is_same_or_positive_short. -/
def y_is_same_or_positive_short (f : ℕ) : Bool := f.testBit 5

/-- GlyphPoint from glyf.rs. -/
structure GlyphPoint where
  x : ℤ
  y : ℤ
  on_curve_point : Bool
  last_point : Bool
deriving DecidableEq

/-- GlyphPoints from glyf.rs: the iterator state over the three packed
streams. -/
structure GlyphPointsState where
  endpoints : List ℕ
  flags : Stream
  x_coords : Stream
  y_coords : Stream
  points_left : ℕ
  last_point_index : ℕ
  contour_points_left : ℕ
  current_contour : ℕ
  flag_repeats : ℕ
  last_flags : ℕ
  x : ℤ
  y : ℤ

/-- The endpoint-scanning loop inside GlyphPoints::next: pop endpoints
until one yields a contour of at least 2 points; a checked_sub failure
(endpoint below the running point index) aborts the iterator. -/
def find_contour : List ℕ → ℕ → Option (ℕ × List ℕ)
  | [], _ => none
  | e :: rest, last_point_index =>
    if e < last_point_index then none
    else if 2 ≤ e - last_point_index then some (e - last_point_index, rest)
    else find_contour rest last_point_index

/-- The four-way coordinate-delta rule of GlyphPoints::next, shared by
the x and y streams. -/
def read_coord_delta (shortf samef : Bool) (s : Stream) : Option (ℤ × Stream) :=
  match shortf, samef with
  | true, true =>
    match s.read_u8 with
    | some (v, s1) => some ((v : ℤ), s1)
    | none => none
  | true, false =>
    match s.read_u8 with
    | some (v, s1) => some (-(v : ℤ), s1)
    | none => none
  | false, true => some (0, s)
  | false, false => s.read_i16

/-- GlyphPoints::next from glyf.rs (Iterator::next). -/
def GlyphPointsState.next (st : GlyphPointsState) : Option (GlyphPoint × GlyphPointsState) :=
  if st.points_left = 0 then none else
  match
    (if st.flag_repeats = 0 then
      match st.flags.read_u8 with
      | none => none
      | some (fl, fs) =>
        if repeat_flag fl then
          match fs.read_u8 with
          | none => none
          | some (r, fs2) => some (fl, r, fs2)
        else some (fl, 0, fs)
    else some (st.last_flags, st.flag_repeats - 1, st.flags) : Option (ℕ × ℕ × Stream))
  with
  | none => none
  | some (fl, reps, fs) =>
    match read_coord_delta (x_short fl) (x_is_same_or_positive_short fl) st.x_coords with
    | none => none
    | some (dx, xs) =>
      let x := wrap16 (st.x + dx)
      match read_coord_delta (y_short fl) (y_is_same_or_positive_short fl) st.y_coords with
      | none => none
      | some (dy, ys) =>
        let y := wrap16 (st.y + dy)
        let points_left := st.points_left - 1
        let last_point_index :=
          if st.last_point_index ≠ 65535 then st.last_point_index + 1
          else st.last_point_index
        let last_point := st.contour_points_left = 0
        if last_point then
          if points_left ≠ 0 then
            match find_contour st.endpoints last_point_index with
            | none => none
            | some (c, eps) =>
              some (⟨x, y, on_curve_point fl, true⟩,
                ⟨eps, fs, xs, ys, points_left, last_point_index, c,
                  st.current_contour + 1, reps, fl, x, y⟩)
          else
            some (⟨x, y, on_curve_point fl, true⟩,
              ⟨st.endpoints, fs, xs, ys, points_left, last_point_index,
                st.contour_points_left, st.current_contour + 1, reps, fl, x, y⟩)
        else
          some (⟨x, y, on_curve_point fl, false⟩,
            ⟨st.endpoints, fs, xs, ys, points_left, last_point_index,
              st.contour_points_left - 1, st.current_contour, reps, fl, x, y⟩)

/-- The materialised point iterator: the Rust for-loop draws points
until next() returns None; the fuel (instantiated with points_left,
which strictly decreases at every successful step) dominates the number
of iterations. -/
def glyph_points_list : ℕ → GlyphPointsState → List GlyphPoint
  | 0, _ => []
  | fuel + 1, st =>
    match st.next with
    | none => []
    | some (p, st') => p :: glyph_points_list fuel st'

/-- Stream::read_array for u16 entries, materialised: n sequential
big-endian u16 reads. -/
def read_u16_list : ℕ → Stream → Option (List ℕ × Stream)
  | 0, s => some ([], s)
  | n + 1, s =>
    match s.read_u16 with
    | none => none
    | some (v, s1) =>
      match read_u16_list n s1 with
      | none => none
      | some (vs, s2) => some (v :: vs, s2)

/-- The loop of resolve_x_coords_len from glyf.rs; the fuel
(instantiated with the initial flags_left, which strictly decreases)
dominates the number of iterations. -/
def resolve_x_coords_len_loop : ℕ → Stream → ℕ → ℕ → Option (ℕ × Stream)
  | 0, s, flags_left, x_len => if flags_left = 0 then some (x_len, s) else none
  | fuel + 1, s, flags_left, x_len =>
    if flags_left = 0 then some (x_len, s) else
    match s.read_u8 with
    | none => none
    | some (fl, s1) =>
      match
        (if repeat_flag fl then
          match s1.read_u8 with
          | none => none
          | some (r, s2) => some (r + 1, s2)
        else some (1, s1) : Option (ℕ × Stream))
      with
      | none => none
      | some (reps, s2) =>
        match
          (if x_short fl then
            if x_len + reps ≤ 65535 then some (x_len + reps) else none
          else if ¬ x_is_same_or_positive_short fl then
            if x_len + reps * 2 ≤ 65535 then some (x_len + reps * 2) else none
          else some x_len : Option ℕ)
        with
        | none => none
        | some x_len2 =>
          if reps ≤ flags_left then
            resolve_x_coords_len_loop fuel s2 (flags_left - reps) x_len2
          else none

/-- resolve_x_coords_len from glyf.rs. -/
def resolve_x_coords_len (s : Stream) (points_total : ℕ) : Option (ℕ × Stream) :=
  resolve_x_coords_len_loop points_total s points_total 0

/-- parse_simple_outline from glyf.rs. -/
def parse_simple_outline (glyph_data : List UInt8) (number_of_contours : ℕ) :
    Option GlyphPointsState :=
  let s := Stream.new glyph_data
  match read_u16_list number_of_contours s with
  | none => none
  | some (endpoints, s1) =>
    match endpoints.getLast? with
    | none => none
    | some last =>
      if 65535 < last + 1 then none else
      let points_total := last + 1
      match s1.read_u16 with
      | none => none
      | some (instructions_len, s2) =>
        let s3 := s2.advance instructions_len
        let flags_offset := s3.offset
        match resolve_x_coords_len s3 points_total with
        | none => none
        | some (x_coords_len, s4) =>
          let x_coords_offset := s4.offset
          let y_coords_offset := x_coords_offset + x_coords_len
          match endpoints with
          | [] => none
          | first :: eps_rest =>
            match slice glyph_data flags_offset x_coords_offset,
                slice glyph_data x_coords_offset y_coords_offset,
                slice glyph_data y_coords_offset glyph_data.length with
            | some fl, some xc, some yc =>
              some ⟨eps_rest, Stream.new fl, Stream.new xc, Stream.new yc,
                points_total, 0, first, 0, 0, 0, 0, 0⟩
            | _, _, _ => none

/-! ### Composite glyph decoding (glyf.rs) -/

/-- CompositeGlyphFlags::arg_1_and_2_are_words. -/
def arg_1_and_2_are_words (f : ℕ) : Bool := f.testBit 0

/-- CompositeGlyphFlags::args_are_xy_values. -/
def args_are_xy_values (f : ℕ) : Bool := f.testBit 1

/-- CompositeGlyphFlags::we_have_a_scale. -/
def we_have_a_scale (f : ℕ) : Bool := f.testBit 3

/-- CompositeGlyphFlags::more_components. -/
def more_components (f : ℕ) : Bool := f.testBit 5

/-- CompositeGlyphFlags::we_have_an_x_and_y_scale. -/
def we_have_an_x_and_y_scale (f : ℕ) : Bool := f.testBit 6

/-- CompositeGlyphFlags::we_have_a_two_by_two. -/
def we_have_a_two_by_two (f : ℕ) : Bool := f.testBit 7

/-- CompositeGlyphInfo from glyf.rs. -/
structure CompositeGlyphInfo where
  glyph_id : ℕ
  transform : Transform
  flags : ℕ

/-- CompositeGlyphIter::next from glyf.rs. -/
def composite_next (s : Stream) : Option (CompositeGlyphInfo × Stream) :=
  if s.at_end then none else
  match s.read_u16 with
  | none => none
  | some (flags, s1) =>
    match s1.read_u16 with
    | none => none
    | some (glyph_id, s2) =>
      let ts := Transform.default
      match
        (if args_are_xy_values flags then
          if arg_1_and_2_are_words flags then
            match s2.read_i16 with
            | none => none
            | some (e, s3) =>
              match s3.read_i16 with
              | none => none
              | some (f, s4) => some (({ ts with e := (e : ℚ), f := (f : ℚ) } : Transform), s4)
          else
            match s2.read_i8 with
            | none => none
            | some (e, s3) =>
              match s3.read_i8 with
              | none => none
              | some (f, s4) => some (({ ts with e := (e : ℚ), f := (f : ℚ) } : Transform), s4)
        else some (ts, s2) : Option (Transform × Stream))
      with
      | none => none
      | some (ts1, s5) =>
        match
          (if we_have_a_two_by_two flags then
            match s5.read_i16 with
            | none => none
            | some (a, t1) =>
              match t1.read_i16 with
              | none => none
              | some (b, t2) =>
                match t2.read_i16 with
                | none => none
                | some (c, t3) =>
                  match t3.read_i16 with
                  | none => none
                  | some (d, t4) =>
                    some (({ ts1 with
                              a := f2dot14 a
                              b := f2dot14 b
                              c := f2dot14 c
                              d := f2dot14 d } : Transform), t4)
          else if we_have_an_x_and_y_scale flags then
            match s5.read_i16 with
            | none => none
            | some (a, t1) =>
              match t1.read_i16 with
              | none => none
              | some (d, t2) =>
                some (({ ts1 with a := f2dot14 a, d := f2dot14 d } : Transform), t2)
          else if we_have_a_scale flags then
            match s5.read_i16 with
            | none => none
            | some (a, t1) =>
              let v := f32_bound (-2) (f2dot14 a) 2
              some (({ ts1 with a := v, d := v } : Transform), t1)
          else some (ts1, s5) : Option (Transform × Stream))
        with
        | none => none
        | some (ts2, s6) =>
          let s7 := if ¬ more_components flags then (⟨s6.data, s6.data.length⟩ : Stream) else s6
          some (⟨glyph_id, ts2, flags⟩, s7)

/-- The materialised composite iterator: records are drawn until next()
fails or jumps the cursor to the end; every successful step consumes at
least four bytes, so a fuel of data.length + 1 dominates the number of
iterations. -/
def composite_glyphs_list : ℕ → Stream → List CompositeGlyphInfo
  | 0, _ => []
  | fuel + 1, s =>
    match composite_next s with
    | none => []
    | some (info, s') => info :: composite_glyphs_list fuel s'

/-! ### Glyph outlining (glyf.rs, Font::outline_impl) -/

/-- Rect from lib.rs (the four i16 header bounds). -/
structure Rect where
  x_min : ℤ
  y_min : ℤ
  x_max : ℤ
  y_max : ℤ
deriving DecidableEq

/-- The header read at the start of outline_impl: the signed contour
count, the four bounds, and the remaining bytes. -/
def read_glyph_header (data : List UInt8) : Option (ℤ × Rect × List UInt8) :=
  let s := Stream.new data
  match s.read_i16 with
  | none => none
  | some (noc, s1) =>
    match s1.read_i16 with
    | none => none
    | some (x_min, s2) =>
      match s2.read_i16 with
      | none => none
      | some (y_min, s3) =>
        match s3.read_i16 with
        | none => none
        | some (x_max, s4) =>
          match s4.read_i16 with
          | none => none
          | some (y_max, s5) =>
            match s5.tail with
            | none => none
            | some t => some (noc, ⟨x_min, y_min, x_max, y_max⟩, t)

/-- Modelled from the spec: the index-to-location lookup of spec
section 4.3 (src/loca.rs is not among the sources); the font is
abstracted as the glyph_data resolution function that Font::glyph_data
implements on top of loca and the glyf byte slice. -/
structure GlyfFont where
  glyph_data : ℕ → Option (List UInt8)

/-- Font::outline_impl from glyf.rs. The builder is threaded through
and returned even on failure, because the receiver has already consumed
the commands emitted before the failure. The component for-loop with
its early return is a fold carrying an alive flag; recursion is
structural on a fuel that, from the entry point, can never be exhausted
before the depth guard (depth increases by 1 while fuel decreases by 1,
and the entry fuel exceeds MAX_COMPONENTS). -/
def outline_impl (font : GlyfFont) : ℕ → List UInt8 → ℕ → Builder → Builder × Option Rect
  | 0, _, _, b => (b, none)
  | fuel + 1, data, depth, b =>
    if 32 ≤ depth then (b, none) else
    match read_glyph_header data with
    | none => (b, none)
    | some (number_of_contours, rect, tail_data) =>
      if 0 < number_of_contours then
        match parse_simple_outline tail_data number_of_contours.toNat with
        | none => (b, none)
        | some st =>
          ((glyph_points_list st.points_left st).foldl
            (fun bb p => bb.push_point (p.x : ℚ) (p.y : ℚ) p.on_curve_point p.last_point) b,
            some rect)
      else if number_of_contours < 0 then
        let comps := composite_glyphs_list (tail_data.length + 1) (Stream.new tail_data)
        let r := comps.foldl
          (fun (acc : Builder × Bool) comp =>
            if acc.2 = false then acc else
            match font.glyph_data comp.glyph_id with
            | none => acc
            | some gdata =>
              let t := Transform.combine acc.1.transform comp.transform
              let b2 := Builder.new t acc.1.bbox acc.1.cmds
              match outline_impl font fuel gdata (depth + 1) b2 with
              | (b3, none) => ({ acc.1 with cmds := b3.cmds }, false)
              | (b3, some _) => ({ acc.1 with cmds := b3.cmds }, true))
          (b, true)
        (r.1, if r.2 then some rect else none)
      else (b, none)

/-- Font::glyf_glyph_outline from glyf.rs: a fresh builder with the
identity transform and no bbox, then outline_impl at depth 0. -/
def glyf_glyph_outline (font : GlyfFont) (glyph_id : ℕ) : Builder × Option Rect :=
  let b := Builder.new Transform.default none []
  match font.glyph_data glyph_id with
  | none => (b, none)
  | some data => outline_impl font 33 data 0 b

/-! ### Concrete fonts for the depth-limit and error-propagation claims -/

/-- A minimal simple glyph: one contour of two on-curve points (10,0)
and (30,0); header (1 contour, zero bounds), endpoint 1, no
instructions, two flag bytes 0x37 (on-curve, short positive x and y),
x deltas 10 and 20, y deltas 0 and 0. -/
def simple_glyph_bytes : List UInt8 :=
  [0x00, 0x01, 0, 0, 0, 0, 0, 0, 0, 0,
   0x00, 0x01, 0x00, 0x00, 0x37, 0x37, 10, 20, 0, 0]

/-- A composite glyph with a single component referencing next_id with
byte-sized zero offsets (flags 0x0002: args-are-xy, no further
components). -/
def composite_glyph_bytes (next_id : ℕ) : List UInt8 :=
  [0xFF, 0xFF, 0, 0, 0, 0, 0, 0, 0, 0,
   0x00, 0x02, UInt8.ofNat (next_id / 256), UInt8.ofNat (next_id % 256), 0, 0]

/-- A chain font: glyphs 0..n-1 are composites each referencing the
next id, glyph n is the simple glyph; outlining glyph 0 therefore
recurses through n+1 glyphs (outline depth n+1). -/
def chain_font (n : ℕ) : GlyfFont :=
  ⟨fun id =>
    if id < n then some (composite_glyph_bytes (id + 1))
    else if id = n then some simple_glyph_bytes
    else none⟩

/-- C4: the recursion guard returns absent at any depth of 32 or more
without touching the builder, and on the concrete chain fonts an
outline depth of exactly 32 glyphs succeeds while 33 returns absent. -/
theorem outline_depth_limit :
    (∀ (font : GlyfFont) (fuel : ℕ) (data : List UInt8) (depth : ℕ) (b : Builder),
      32 ≤ depth → outline_impl font fuel data depth b = (b, none)) ∧
    (glyf_glyph_outline (chain_font 31) 0).2 = some ⟨0, 0, 0, 0⟩ ∧
    (glyf_glyph_outline (chain_font 32) 0).2 = none := by
  refine ⟨?_, ?_, ?_⟩
  · intro font fuel data depth b h
    cases fuel with
    | zero => rfl
    | succ n =>
      simp only [outline_impl]
      rw [if_pos h]
  · with_unfolding_all decide
  · with_unfolding_all decide

/-- C4 witnessed at depth 40 with empty data: the guard conjunct of the
theorem applied at a concrete input. -/
theorem outline_depth_limit_witness :
    (32 ≤ 40) ∧
    outline_impl (chain_font 0) 5 [] 40 (Builder.new Transform.default none []) =
      (Builder.new Transform.default none [], none) :=
  ⟨by decide,
   outline_depth_limit.1 (chain_font 0) 5 [] 40 (Builder.new Transform.default none [])
     (by decide)⟩

/-- A composite glyph with two components id1 then id2, both with zero
byte offsets; the first record sets more-components. -/
def composite_two_bytes (id1 id2 : ℕ) : List UInt8 :=
  [0xFF, 0xFF, 0, 0, 0, 0, 0, 0, 0, 0,
   0x00, 0x22, UInt8.ofNat (id1 / 256), UInt8.ofNat (id1 % 256), 0, 0,
   0x00, 0x02, UInt8.ofNat (id2 / 256), UInt8.ofNat (id2 % 256), 0, 0]

/-- An empty glyph: contour count 0 and zero bounds (outline_impl
returns absent on it). -/
def empty_glyph_bytes : List UInt8 := [0, 0, 0, 0, 0, 0, 0, 0, 0, 0]

/-- Font whose glyph 0 is a composite of glyph 1 (no byte range in the
location table) and glyph 2 (the simple glyph). -/
def font_skip : GlyfFont :=
  ⟨fun id =>
    if id = 0 then some (composite_two_bytes 1 2)
    else if id = 2 then some simple_glyph_bytes
    else none⟩

/-- Font whose glyph 0 is a composite of glyph 1 (the simple glyph)
followed by glyph 2 (an empty glyph whose data exists but outlines to
absent). -/
def font_fail : GlyfFont :=
  ⟨fun id =>
    if id = 0 then some (composite_two_bytes 1 2)
    else if id = 1 then some simple_glyph_bytes
    else if id = 2 then some empty_glyph_bytes
    else none⟩

/-- C10: a component without a byte range is silently skipped (the
composite still succeeds, emitting only the other component's
commands), while a component whose data exists but outlines to absent
makes the whole composite return absent even though the commands of the
earlier component were already emitted to the receiver. -/
theorem composite_component_error_propagation :
    ((glyf_glyph_outline font_skip 0).2 = some ⟨0, 0, 0, 0⟩ ∧
      (glyf_glyph_outline font_skip 0).1.cmds =
        [DrawCmd.move 10 0, DrawCmd.line 30 0, DrawCmd.line 10 0,
          DrawCmd.close, DrawCmd.close]) ∧
    ((glyf_glyph_outline font_fail 0).2 = none ∧
      (glyf_glyph_outline font_fail 0).1.cmds =
        [DrawCmd.move 10 0, DrawCmd.line 30 0, DrawCmd.line 10 0,
          DrawCmd.close, DrawCmd.close]) := by
  refine ⟨⟨?_, ?_⟩, ?_, ?_⟩ <;> with_unfolding_all decide

/-! ### Font construction (lib.rs, Font::from_data) -/

/-- Big-endian 32-bit read at a fixed position of an in-bounds slice
(SafeStream-style access, used only within checked headers). -/
def be32_at (l : List UInt8) (i : ℕ) : ℕ :=
  (l.getD i 0).toNat * 16777216 + (l.getD (i + 1) 0).toNat * 65536 +
    (l.getD (i + 2) 0).toNat * 256 + (l.getD (i + 3) 0).toNat

/-- The bytes of the collection tag 'ttcf'. -/
def ttcf_tag_bytes : List UInt8 := [0x74, 0x74, 0x63, 0x66]

/-- fonts_in_collection from lib.rs: reads the 12-byte TTC header
(modelled from the spec section 6, src/raw.rs being absent: tag, major,
minor, numFonts), compares the tag bytes with 'ttcf' and returns the
32-bit numFonts. -/
def fonts_in_collection (data : List UInt8) : Option ℕ :=
  match slice data 0 12 with
  | none => none
  | some hdr => if hdr.take 4 = ttcf_tag_bytes then some (be32_at hdr 8) else none

/-- Modelled from the spec: raw::TableRecord (src/raw.rs is not among
the sources), the 16-byte directory record {tag, checksum, offset,
length} of spec section 4.2; the checksum is read and ignored. -/
structure TableRecord where
  table_tag : ℕ
  offset : ℕ
  length : ℕ
deriving DecidableEq

/-- One 16-byte table record read. -/
def read_table_record (s : Stream) : Option (TableRecord × Stream) :=
  match s.read_u32 with
  | none => none
  | some (tag, s1) =>
    match s1.read_u32 with
    | none => none
    | some (_, s2) =>
      match s2.read_u32 with
      | none => none
      | some (off, s3) =>
        match s3.read_u32 with
        | none => none
        | some (len, s4) => some (⟨tag, off, len⟩, s4)

/-- Stream::read_array for table records, materialised. -/
def read_table_records : ℕ → Stream → Option (List TableRecord × Stream)
  | 0, s => some ([], s)
  | n + 1, s =>
    match read_table_record s with
    | none => none
    | some (t, s1) =>
      match read_table_records n s1 with
      | none => none
      | some (ts, s2) => some (t :: ts, s2)

/-- The collection-redirection prologue of Font::from_data: when the
buffer is a collection, require index < numFonts, read the 32-bit font
offset at 12 + 4*index and slice the buffer from it; otherwise use the
buffer itself. -/
def select_table_data (data : List UInt8) (index : ℕ) : Option (List UInt8) :=
  match fonts_in_collection data with
  | some n =>
    if index < n then
      match ((Stream.new data).advance (12 + 4 * index)).read_u32 with
      | none => none
      | some (font_offset, _) =>
        if font_offset ≤ data.length then some (data.drop font_offset) else none
    else none
  | none => some data

/-- The offset-table reading of Font::from_data: the sfnt magic (one of
the two accepted values), the 16-bit table count, six skipped bytes of
search hints, then the table records. -/
def read_offset_table (table_data : List UInt8) : Option (List TableRecord) :=
  let s := Stream.new table_data
  match s.read_u32 with
  | none => none
  | some (sfnt_version, s1) =>
    if sfnt_version ≠ 0x00010000 ∧ sfnt_version ≠ 0x4F54544F then none
    else
      match s1.read_u16 with
      | none => none
      | some (num_tables, s2) =>
        match read_table_records num_tables (s2.advance 6) with
        | none => none
        | some (tables, _) => some tables

/-- IndexToLocationFormat from lib.rs. -/
inductive IndexToLocationFormat
  | short
  | long
deriving DecidableEq

/-- The sub-table parsers Font::from_data delegates to. Their modules
(cmap.rs, maxp.rs, head parsing in raw.rs, ...) are not among the
sources, so they are abstract here: every claim about from_data is
proved for arbitrary parser functions. HeadT, HheaT, MaxpT and VheaT
are the parsed mandatory-table types (with the projections from_data
consumes); all other parsed optional tables share the abstract type ω. -/
structure TableParsers (HeadT HheaT MaxpT VheaT ω : Type) where
  parse_cff : List UInt8 → Option ω
  parse_cff2 : List UInt8 → Option ω
  parse_gdef : List UInt8 → Option ω
  parse_ggg : List UInt8 → Option ω
  parse_os2 : List UInt8 → Option ω
  parse_vorg : List UInt8 → Option ω
  parse_cmap : List UInt8 → Option ω
  parse_fvar : List UInt8 → Option ω
  parse_gvar : List UInt8 → Option ω
  parse_head : List UInt8 → Option HeadT
  parse_hhea : List UInt8 → Option HheaT
  parse_maxp : List UInt8 → Option MaxpT
  parse_name : List UInt8 → Option ω
  parse_post : List UInt8 → Option ω
  parse_vhea : List UInt8 → Option VheaT
  parse_hmtx : List UInt8 → ℕ → ℕ → Option ω
  parse_loca : List UInt8 → ℕ → IndexToLocationFormat → Option ω
  number_of_h_metrics : HheaT → Option ℕ
  num_of_long_ver_metrics : VheaT → Option ℕ
  index_to_loc_format : HeadT → ℤ
  maxp_number_of_glyphs : MaxpT → ℕ

/-- The mutable locals of the tag-dispatch loop in Font::from_data. -/
structure RawTables (HeadT HheaT MaxpT VheaT ω : Type) where
  cff_ : Option ω
  cff2 : Option ω
  gdef : Option ω
  gpos : Option ω
  gsub : Option ω
  hvar : Option (List UInt8)
  gvar : Option ω
  mvar : Option (List UInt8)
  os_2 : Option ω
  vorg : Option ω
  vvar : Option (List UInt8)
  avar : Option (List UInt8)
  cmap : Option ω
  fvar : Option ω
  glyf : Option (List UInt8)
  head : Option HeadT
  hhea : Option HheaT
  hmtx : Option (List UInt8)
  kern : Option (List UInt8)
  loca : Option (List UInt8)
  maxp : Option MaxpT
  name : Option ω
  post : Option ω
  vhea : Option VheaT
  vmtx : Option (List UInt8)

section FromData

variable {HeadT HheaT MaxpT VheaT ω : Type}

/-- All locals start absent. -/
def init_raw : RawTables HeadT HheaT MaxpT VheaT ω :=
  ⟨none, none, none, none, none, none, none, none, none, none, none, none, none,
   none, none, none, none, none, none, none, none, none, none, none, none⟩

/-- The recognized table tags as 32-bit big-endian values. -/
def tag_cff : ℕ := 0x43464620

def tag_cff2 : ℕ := 0x43464632

def tag_gdef : ℕ := 0x47444546

def tag_gpos : ℕ := 0x47504F53

def tag_gsub : ℕ := 0x47535542

def tag_hvar : ℕ := 0x48564152

def tag_mvar : ℕ := 0x4D564152

def tag_os2 : ℕ := 0x4F532F32

def tag_vorg : ℕ := 0x564F5247

def tag_vvar : ℕ := 0x56564152

def tag_avar : ℕ := 0x61766172

def tag_cmap : ℕ := 0x636D6170

def tag_fvar : ℕ := 0x66766172

def tag_glyf : ℕ := 0x676C7966

def tag_gvar : ℕ := 0x67766172

def tag_head : ℕ := 0x68656164

def tag_hhea : ℕ := 0x68686561

def tag_hmtx : ℕ := 0x686D7478

def tag_kern : ℕ := 0x6B65726E

def tag_loca : ℕ := 0x6C6F6361

def tag_maxp : ℕ := 0x6D617870

def tag_name : ℕ := 0x6E616D65

def tag_post : ℕ := 0x706F7374

def tag_vhea : ℕ := 0x76686561

def tag_vmtx : ℕ := 0x766D7478

/-- The tag-dispatch body of the record loop in Font::from_data: slice
the record's byte range out of the whole buffer, feed it to the
table's parser (or store it raw for the byte-slice tables), and store
the result — unconditionally overwriting the previous value, so a later
record with the same tag wins even if it fails. -/
def process_table (data : List UInt8) (P : TableParsers HeadT HheaT MaxpT VheaT ω)
    (acc : RawTables HeadT HheaT MaxpT VheaT ω) (t : TableRecord) :
    RawTables HeadT HheaT MaxpT VheaT ω :=
  let range := slice data t.offset (t.offset + t.length)
  if t.table_tag = tag_cff then { acc with cff_ := range.bind P.parse_cff }
  else if t.table_tag = tag_cff2 then { acc with cff2 := range.bind P.parse_cff2 }
  else if t.table_tag = tag_gdef then { acc with gdef := range.bind P.parse_gdef }
  else if t.table_tag = tag_gpos then { acc with gpos := range.bind P.parse_ggg }
  else if t.table_tag = tag_gsub then { acc with gsub := range.bind P.parse_ggg }
  else if t.table_tag = tag_hvar then { acc with hvar := range }
  else if t.table_tag = tag_mvar then { acc with mvar := range }
  else if t.table_tag = tag_os2 then { acc with os_2 := range.bind P.parse_os2 }
  else if t.table_tag = tag_vorg then { acc with vorg := range.bind P.parse_vorg }
  else if t.table_tag = tag_vvar then { acc with vvar := range }
  else if t.table_tag = tag_avar then { acc with avar := range }
  else if t.table_tag = tag_cmap then { acc with cmap := range.bind P.parse_cmap }
  else if t.table_tag = tag_fvar then { acc with fvar := range.bind P.parse_fvar }
  else if t.table_tag = tag_glyf then { acc with glyf := range }
  else if t.table_tag = tag_gvar then { acc with gvar := range.bind P.parse_gvar }
  else if t.table_tag = tag_head then { acc with head := range.bind P.parse_head }
  else if t.table_tag = tag_hhea then { acc with hhea := range.bind P.parse_hhea }
  else if t.table_tag = tag_hmtx then { acc with hmtx := range }
  else if t.table_tag = tag_kern then { acc with kern := range }
  else if t.table_tag = tag_loca then { acc with loca := range }
  else if t.table_tag = tag_maxp then { acc with maxp := range.bind P.parse_maxp }
  else if t.table_tag = tag_name then { acc with name := range.bind P.parse_name }
  else if t.table_tag = tag_post then { acc with post := range.bind P.parse_post }
  else if t.table_tag = tag_vhea then { acc with vhea := range.bind P.parse_vhea }
  else if t.table_tag = tag_vmtx then { acc with vmtx := range }
  else acc

/-- Font from lib.rs (fields in source order); the sub-table payload
types are the abstract parser result types. -/
structure Font (HeadT HheaT MaxpT VheaT ω : Type) where
  avar : Option (List UInt8)
  cff_ : Option ω
  cff2 : Option ω
  cmap : Option ω
  fvar : Option ω
  gdef : Option ω
  glyf : Option (List UInt8)
  gpos : Option ω
  gsub : Option ω
  gvar : Option ω
  head : HeadT
  hhea : HheaT
  hmtx : Option ω
  hvar : Option (List UInt8)
  kern : Option (List UInt8)
  loca : Option ω
  mvar : Option (List UInt8)
  name : Option ω
  os_2 : Option ω
  post : Option ω
  vhea : Option VheaT
  vmtx : Option ω
  vorg : Option ω
  vvar : Option (List UInt8)
  number_of_glyphs : ℕ

/-- Font::index_to_location_format from lib.rs. -/
def index_to_location_format (P : TableParsers HeadT HheaT MaxpT VheaT ω)
    (head : HeadT) : Option IndexToLocationFormat :=
  if P.index_to_loc_format head = 0 then some IndexToLocationFormat.short
  else if P.index_to_loc_format head = 1 then some IndexToLocationFormat.long
  else none

/-- Font::from_data from lib.rs: collection redirection, offset-table
check (note the length guard is on the whole buffer, as in the source),
tag-dispatch loop, mandatory-table check (head, hhea, maxp), then the
second-phase hmtx/vmtx/loca parses that need values from the mandatory
tables. -/
def from_data (P : TableParsers HeadT HheaT MaxpT VheaT ω)
    (data : List UInt8) (index : ℕ) : Option (Font HeadT HheaT MaxpT VheaT ω) :=
  match select_table_data data index with
  | none => none
  | some table_data =>
    if data.length < 12 then none else
    match read_offset_table table_data with
    | none => none
    | some tables =>
      let raw := tables.foldl (process_table data P) init_raw
      match raw.head, raw.hhea, raw.maxp with
      | some head, some hhea, some maxp =>
        let number_of_glyphs := P.maxp_number_of_glyphs maxp
        let hmtx :=
          match raw.hmtx with
          | some hd =>
            match P.number_of_h_metrics hhea with
            | some n => P.parse_hmtx hd n number_of_glyphs
            | none => none
          | none => none
        let vmtx :=
          match raw.vhea, raw.vmtx with
          | some vhea, some vd =>
            match P.num_of_long_ver_metrics vhea with
            | some n => P.parse_hmtx vd n number_of_glyphs
            | none => none
          | _, _ => none
        let loca :=
          match raw.loca with
          | some ld =>
            match index_to_location_format P head with
            | some fmt => P.parse_loca ld number_of_glyphs fmt
            | none => none
          | none => none
        some ⟨raw.avar, raw.cff_, raw.cff2, raw.cmap, raw.fvar, raw.gdef, raw.glyf,
          raw.gpos, raw.gsub, raw.gvar, head, hhea, hmtx, raw.hvar, raw.kern,
          loca, raw.mvar, raw.name, raw.os_2, raw.post, raw.vhea, vmtx,
          raw.vorg, raw.vvar, number_of_glyphs⟩
      | _, _, _ => none

/-- TableName from lib.rs. -/
inductive TableName
  | AxisVariations
  | CharacterToGlyphIndexMapping
  | CompactFontFormat
  | CompactFontFormat2
  | FontVariations
  | GlyphData
  | GlyphDefinition
  | GlyphPositioning
  | GlyphSubstitution
  | GlyphVariations
  | Header
  | HorizontalHeader
  | HorizontalMetrics
  | HorizontalMetricsVariations
  | IndexToLocation
  | Kerning
  | MaximumProfile
  | MetricsVariations
  | Naming
  | PostScript
  | VerticalHeader
  | VerticalMetrics
  | VerticalMetricsVariations
  | VerticalOrigin
  | WindowsMetrics
deriving DecidableEq

/-- Font::has_table from lib.rs. -/
def Font.has_table (font : Font HeadT HheaT MaxpT VheaT ω) (name : TableName) : Bool :=
  match name with
  | TableName.Header => true
  | TableName.HorizontalHeader => true
  | TableName.MaximumProfile => true
  | TableName.AxisVariations => font.avar.isSome
  | TableName.CharacterToGlyphIndexMapping => font.cmap.isSome
  | TableName.CompactFontFormat => font.cff_.isSome
  | TableName.CompactFontFormat2 => font.cff2.isSome
  | TableName.FontVariations => font.fvar.isSome
  | TableName.GlyphData => font.glyf.isSome
  | TableName.GlyphDefinition => font.gdef.isSome
  | TableName.GlyphPositioning => font.gpos.isSome
  | TableName.GlyphSubstitution => font.gsub.isSome
  | TableName.GlyphVariations => font.gvar.isSome
  | TableName.HorizontalMetrics => font.hmtx.isSome
  | TableName.HorizontalMetricsVariations => font.hvar.isSome
  | TableName.IndexToLocation => font.loca.isSome
  | TableName.Kerning => font.kern.isSome
  | TableName.MetricsVariations => font.mvar.isSome
  | TableName.Naming => font.name.isSome
  | TableName.PostScript => font.post.isSome
  | TableName.VerticalHeader => font.vhea.isSome
  | TableName.VerticalMetrics => font.vmtx.isSome
  | TableName.VerticalMetricsVariations => font.vvar.isSome
  | TableName.VerticalOrigin => font.vorg.isSome
  | TableName.WindowsMetrics => font.os_2.isSome

/-- The spec's view of table storage: the byte range of the last
directory record carrying the tag (later records overwrite earlier
ones), or absent. -/
def locate_table (data : List UInt8) (tables : List TableRecord) (tag : ℕ) :
    Option (List UInt8) :=
  match tables.reverse.find? (fun t => t.table_tag = tag) with
  | some t => slice data t.offset (t.offset + t.length)
  | none => none

/-- The spec-side success condition of construction: the offset table
(after collection redirection) is readable with an accepted magic, and
each of the three mandatory tables is located and parses. No optional
parser occurs here. -/
def mandatory_tables_ok (P : TableParsers HeadT HheaT MaxpT VheaT ω)
    (data : List UInt8) (index : ℕ) : Bool :=
  match select_table_data data index with
  | none => false
  | some table_data =>
    if data.length < 12 then false else
    match read_offset_table table_data with
    | none => false
    | some tables =>
      ((locate_table data tables tag_head).bind P.parse_head).isSome &&
      ((locate_table data tables tag_hhea).bind P.parse_hhea).isSome &&
      ((locate_table data tables tag_maxp).bind P.parse_maxp).isSome

/-- The spec-side presence of each table after construction: locate the
last matching record, parse it, and for the second-phase tables
(hmtx/vmtx/loca) recompute the mandatory-table values they need. -/
def spec_table_present (P : TableParsers HeadT HheaT MaxpT VheaT ω)
    (data : List UInt8) (index : ℕ) (name : TableName) : Bool :=
  match select_table_data data index with
  | none => false
  | some table_data =>
    if data.length < 12 then false else
    match read_offset_table table_data with
    | none => false
    | some tables =>
      match name with
      | TableName.Header => true
      | TableName.HorizontalHeader => true
      | TableName.MaximumProfile => true
      | TableName.AxisVariations => (locate_table data tables tag_avar).isSome
      | TableName.CharacterToGlyphIndexMapping =>
        ((locate_table data tables tag_cmap).bind P.parse_cmap).isSome
      | TableName.CompactFontFormat =>
        ((locate_table data tables tag_cff).bind P.parse_cff).isSome
      | TableName.CompactFontFormat2 =>
        ((locate_table data tables tag_cff2).bind P.parse_cff2).isSome
      | TableName.FontVariations =>
        ((locate_table data tables tag_fvar).bind P.parse_fvar).isSome
      | TableName.GlyphData => (locate_table data tables tag_glyf).isSome
      | TableName.GlyphDefinition =>
        ((locate_table data tables tag_gdef).bind P.parse_gdef).isSome
      | TableName.GlyphPositioning =>
        ((locate_table data tables tag_gpos).bind P.parse_ggg).isSome
      | TableName.GlyphSubstitution =>
        ((locate_table data tables tag_gsub).bind P.parse_ggg).isSome
      | TableName.GlyphVariations =>
        ((locate_table data tables tag_gvar).bind P.parse_gvar).isSome
      | TableName.HorizontalMetrics =>
        (match locate_table data tables tag_hmtx,
            (locate_table data tables tag_hhea).bind P.parse_hhea,
            (locate_table data tables tag_maxp).bind P.parse_maxp with
        | some hd, some hhea, some maxp =>
          match P.number_of_h_metrics hhea with
          | some n => (P.parse_hmtx hd n (P.maxp_number_of_glyphs maxp)).isSome
          | none => false
        | _, _, _ => false)
      | TableName.HorizontalMetricsVariations =>
        (locate_table data tables tag_hvar).isSome
      | TableName.IndexToLocation =>
        (match locate_table data tables tag_loca,
            (locate_table data tables tag_head).bind P.parse_head,
            (locate_table data tables tag_maxp).bind P.parse_maxp with
        | some ld, some head, some maxp =>
          match index_to_location_format P head with
          | some fmt => (P.parse_loca ld (P.maxp_number_of_glyphs maxp) fmt).isSome
          | none => false
        | _, _, _ => false)
      | TableName.Kerning => (locate_table data tables tag_kern).isSome
      | TableName.MetricsVariations => (locate_table data tables tag_mvar).isSome
      | TableName.Naming =>
        ((locate_table data tables tag_name).bind P.parse_name).isSome
      | TableName.PostScript =>
        ((locate_table data tables tag_post).bind P.parse_post).isSome
      | TableName.VerticalHeader =>
        ((locate_table data tables tag_vhea).bind P.parse_vhea).isSome
      | TableName.VerticalMetrics =>
        (match locate_table data tables tag_vmtx,
            (locate_table data tables tag_vhea).bind P.parse_vhea,
            (locate_table data tables tag_maxp).bind P.parse_maxp with
        | some vd, some vhea, some maxp =>
          match P.num_of_long_ver_metrics vhea with
          | some n => (P.parse_hmtx vd n (P.maxp_number_of_glyphs maxp)).isSome
          | none => false
        | _, _, _ => false)
      | TableName.VerticalMetricsVariations =>
        (locate_table data tables tag_vvar).isSome
      | TableName.VerticalOrigin =>
        ((locate_table data tables tag_vorg).bind P.parse_vorg).isSome
      | TableName.WindowsMetrics =>
        ((locate_table data tables tag_os2).bind P.parse_os2).isSome

end FromData

section FromDataProofs

variable {HeadT HheaT MaxpT VheaT ω : Type}

/-- A fold that overwrites one cell whenever the record's tag matches
ends at the value of the last matching record. -/
theorem foldl_step_last {α β : Type} (tagOf : α → ℕ) (tag : ℕ) (f : α → Option β) :
    ∀ (rs : List α) (init : Option β),
      rs.foldl (fun cur t => if tagOf t = tag then f t else cur) init =
        (match rs.reverse.find? (fun t => decide (tagOf t = tag)) with
        | some t => f t
        | none => init) := by
  intro rs
  induction rs with
  | nil => intro init; rfl
  | cons t ts ih =>
    intro init
    simp only [List.foldl_cons, List.reverse_cons, List.find?_append]
    rw [ih]
    cases h : ts.reverse.find? (fun t => decide (tagOf t = tag)) with
    | some u => simp [h]
    | none =>
      simp only [h, Option.none_orElse]
      by_cases ht : tagOf t = tag
      · simp [List.find?, ht]
      · simp [List.find?, ht]

/-- Projecting one field through the record-dispatch fold equals a fold
of the field's own one-cell step. -/
theorem foldl_field {α γ σ : Type} (g : σ → α → σ) (sel : σ → γ) (step : γ → α → γ)
    (h : ∀ acc t, sel (g acc t) = step (sel acc) t) :
    ∀ (rs : List α) (acc : σ), sel (rs.foldl g acc) = rs.foldl step (sel acc) := by
  intro rs
  induction rs with
  | nil => intro acc; rfl
  | cons t ts ih =>
    intro acc
    simp only [List.foldl_cons]
    rw [ih, h]

theorem locate_table_bind {β : Type} (data : List UInt8) (rs : List TableRecord)
    (tag : ℕ) (f : List UInt8 → Option β) :
    rs.foldl (fun cur t => if t.table_tag = tag
        then (slice data t.offset (t.offset + t.length)).bind f else cur) none =
      (locate_table data rs tag).bind f := by
  rw [foldl_step_last TableRecord.table_tag tag
    (fun t => (slice data t.offset (t.offset + t.length)).bind f) rs none]
  unfold locate_table
  cases rs.reverse.find? (fun t => decide (t.table_tag = tag)) <;> rfl

theorem locate_table_raw (data : List UInt8) (rs : List TableRecord) (tag : ℕ) :
    rs.foldl (fun cur t => if t.table_tag = tag
        then slice data t.offset (t.offset + t.length) else cur) none =
      locate_table data rs tag := by
  rw [foldl_step_last TableRecord.table_tag tag
    (fun t => slice data t.offset (t.offset + t.length)) rs none]
  unfold locate_table
  cases rs.reverse.find? (fun t => decide (t.table_tag = tag)) <;> rfl

theorem raw_cff_eq (data : List UInt8) (P : TableParsers HeadT HheaT MaxpT VheaT ω)
    (rs : List TableRecord) :
    (rs.foldl (process_table data P) init_raw).cff_ =
      (locate_table data rs tag_cff).bind P.parse_cff := by
  rw [foldl_field (process_table data P) (fun r => r.cff_)
    (fun cur t => if t.table_tag = tag_cff
      then (slice data t.offset (t.offset + t.length)).bind P.parse_cff else cur)
    (by
      intro acc t
      simp only [process_table, apply_ite RawTables.cff_]
      by_cases h : t.table_tag = tag_cff
      · simp [h, tag_cff, tag_cff2, tag_gdef, tag_gpos, tag_gsub, tag_hvar, tag_mvar,
        tag_os2, tag_vorg, tag_vvar, tag_avar, tag_cmap, tag_fvar, tag_glyf, tag_gvar,
        tag_head, tag_hhea, tag_hmtx, tag_kern, tag_loca, tag_maxp, tag_name, tag_post,
        tag_vhea, tag_vmtx]
      · simp [h]) rs init_raw]
  exact locate_table_bind data rs tag_cff P.parse_cff

theorem raw_cff2_eq (data : List UInt8) (P : TableParsers HeadT HheaT MaxpT VheaT ω)
    (rs : List TableRecord) :
    (rs.foldl (process_table data P) init_raw).cff2 =
      (locate_table data rs tag_cff2).bind P.parse_cff2 := by
  rw [foldl_field (process_table data P) (fun r => r.cff2)
    (fun cur t => if t.table_tag = tag_cff2
      then (slice data t.offset (t.offset + t.length)).bind P.parse_cff2 else cur)
    (by
      intro acc t
      simp only [process_table, apply_ite RawTables.cff2]
      by_cases h : t.table_tag = tag_cff2
      · simp [h, tag_cff, tag_cff2, tag_gdef, tag_gpos, tag_gsub, tag_hvar, tag_mvar,
        tag_os2, tag_vorg, tag_vvar, tag_avar, tag_cmap, tag_fvar, tag_glyf, tag_gvar,
        tag_head, tag_hhea, tag_hmtx, tag_kern, tag_loca, tag_maxp, tag_name, tag_post,
        tag_vhea, tag_vmtx]
      · simp [h]) rs init_raw]
  exact locate_table_bind data rs tag_cff2 P.parse_cff2

theorem raw_gdef_eq (data : List UInt8) (P : TableParsers HeadT HheaT MaxpT VheaT ω)
    (rs : List TableRecord) :
    (rs.foldl (process_table data P) init_raw).gdef =
      (locate_table data rs tag_gdef).bind P.parse_gdef := by
  rw [foldl_field (process_table data P) (fun r => r.gdef)
    (fun cur t => if t.table_tag = tag_gdef
      then (slice data t.offset (t.offset + t.length)).bind P.parse_gdef else cur)
    (by
      intro acc t
      simp only [process_table, apply_ite RawTables.gdef]
      by_cases h : t.table_tag = tag_gdef
      · simp [h, tag_cff, tag_cff2, tag_gdef, tag_gpos, tag_gsub, tag_hvar, tag_mvar,
        tag_os2, tag_vorg, tag_vvar, tag_avar, tag_cmap, tag_fvar, tag_glyf, tag_gvar,
        tag_head, tag_hhea, tag_hmtx, tag_kern, tag_loca, tag_maxp, tag_name, tag_post,
        tag_vhea, tag_vmtx]
      · simp [h]) rs init_raw]
  exact locate_table_bind data rs tag_gdef P.parse_gdef

theorem raw_gpos_eq (data : List UInt8) (P : TableParsers HeadT HheaT MaxpT VheaT ω)
    (rs : List TableRecord) :
    (rs.foldl (process_table data P) init_raw).gpos =
      (locate_table data rs tag_gpos).bind P.parse_ggg := by
  rw [foldl_field (process_table data P) (fun r => r.gpos)
    (fun cur t => if t.table_tag = tag_gpos
      then (slice data t.offset (t.offset + t.length)).bind P.parse_ggg else cur)
    (by
      intro acc t
      simp only [process_table, apply_ite RawTables.gpos]
      by_cases h : t.table_tag = tag_gpos
      · simp [h, tag_cff, tag_cff2, tag_gdef, tag_gpos, tag_gsub, tag_hvar, tag_mvar,
        tag_os2, tag_vorg, tag_vvar, tag_avar, tag_cmap, tag_fvar, tag_glyf, tag_gvar,
        tag_head, tag_hhea, tag_hmtx, tag_kern, tag_loca, tag_maxp, tag_name, tag_post,
        tag_vhea, tag_vmtx]
      · simp [h]) rs init_raw]
  exact locate_table_bind data rs tag_gpos P.parse_ggg

theorem raw_gsub_eq (data : List UInt8) (P : TableParsers HeadT HheaT MaxpT VheaT ω)
    (rs : List TableRecord) :
    (rs.foldl (process_table data P) init_raw).gsub =
      (locate_table data rs tag_gsub).bind P.parse_ggg := by
  rw [foldl_field (process_table data P) (fun r => r.gsub)
    (fun cur t => if t.table_tag = tag_gsub
      then (slice data t.offset (t.offset + t.length)).bind P.parse_ggg else cur)
    (by
      intro acc t
      simp only [process_table, apply_ite RawTables.gsub]
      by_cases h : t.table_tag = tag_gsub
      · simp [h, tag_cff, tag_cff2, tag_gdef, tag_gpos, tag_gsub, tag_hvar, tag_mvar,
        tag_os2, tag_vorg, tag_vvar, tag_avar, tag_cmap, tag_fvar, tag_glyf, tag_gvar,
        tag_head, tag_hhea, tag_hmtx, tag_kern, tag_loca, tag_maxp, tag_name, tag_post,
        tag_vhea, tag_vmtx]
      · simp [h]) rs init_raw]
  exact locate_table_bind data rs tag_gsub P.parse_ggg

theorem raw_hvar_eq (data : List UInt8) (P : TableParsers HeadT HheaT MaxpT VheaT ω)
    (rs : List TableRecord) :
    (rs.foldl (process_table data P) init_raw).hvar = locate_table data rs tag_hvar := by
  rw [foldl_field (process_table data P) (fun r => r.hvar)
    (fun cur t => if t.table_tag = tag_hvar
      then slice data t.offset (t.offset + t.length) else cur)
    (by
      intro acc t
      simp only [process_table, apply_ite RawTables.hvar]
      by_cases h : t.table_tag = tag_hvar
      · simp [h, tag_cff, tag_cff2, tag_gdef, tag_gpos, tag_gsub, tag_hvar, tag_mvar,
        tag_os2, tag_vorg, tag_vvar, tag_avar, tag_cmap, tag_fvar, tag_glyf, tag_gvar,
        tag_head, tag_hhea, tag_hmtx, tag_kern, tag_loca, tag_maxp, tag_name, tag_post,
        tag_vhea, tag_vmtx]
      · simp [h]) rs init_raw]
  exact locate_table_raw data rs tag_hvar

theorem raw_gvar_eq (data : List UInt8) (P : TableParsers HeadT HheaT MaxpT VheaT ω)
    (rs : List TableRecord) :
    (rs.foldl (process_table data P) init_raw).gvar =
      (locate_table data rs tag_gvar).bind P.parse_gvar := by
  rw [foldl_field (process_table data P) (fun r => r.gvar)
    (fun cur t => if t.table_tag = tag_gvar
      then (slice data t.offset (t.offset + t.length)).bind P.parse_gvar else cur)
    (by
      intro acc t
      simp only [process_table, apply_ite RawTables.gvar]
      by_cases h : t.table_tag = tag_gvar
      · simp [h, tag_cff, tag_cff2, tag_gdef, tag_gpos, tag_gsub, tag_hvar, tag_mvar,
        tag_os2, tag_vorg, tag_vvar, tag_avar, tag_cmap, tag_fvar, tag_glyf, tag_gvar,
        tag_head, tag_hhea, tag_hmtx, tag_kern, tag_loca, tag_maxp, tag_name, tag_post,
        tag_vhea, tag_vmtx]
      · simp [h]) rs init_raw]
  exact locate_table_bind data rs tag_gvar P.parse_gvar

theorem raw_mvar_eq (data : List UInt8) (P : TableParsers HeadT HheaT MaxpT VheaT ω)
    (rs : List TableRecord) :
    (rs.foldl (process_table data P) init_raw).mvar = locate_table data rs tag_mvar := by
  rw [foldl_field (process_table data P) (fun r => r.mvar)
    (fun cur t => if t.table_tag = tag_mvar
      then slice data t.offset (t.offset + t.length) else cur)
    (by
      intro acc t
      simp only [process_table, apply_ite RawTables.mvar]
      by_cases h : t.table_tag = tag_mvar
      · simp [h, tag_cff, tag_cff2, tag_gdef, tag_gpos, tag_gsub, tag_hvar, tag_mvar,
        tag_os2, tag_vorg, tag_vvar, tag_avar, tag_cmap, tag_fvar, tag_glyf, tag_gvar,
        tag_head, tag_hhea, tag_hmtx, tag_kern, tag_loca, tag_maxp, tag_name, tag_post,
        tag_vhea, tag_vmtx]
      · simp [h]) rs init_raw]
  exact locate_table_raw data rs tag_mvar

theorem raw_os2_eq (data : List UInt8) (P : TableParsers HeadT HheaT MaxpT VheaT ω)
    (rs : List TableRecord) :
    (rs.foldl (process_table data P) init_raw).os_2 =
      (locate_table data rs tag_os2).bind P.parse_os2 := by
  rw [foldl_field (process_table data P) (fun r => r.os_2)
    (fun cur t => if t.table_tag = tag_os2
      then (slice data t.offset (t.offset + t.length)).bind P.parse_os2 else cur)
    (by
      intro acc t
      simp only [process_table, apply_ite RawTables.os_2]
      by_cases h : t.table_tag = tag_os2
      · simp [h, tag_cff, tag_cff2, tag_gdef, tag_gpos, tag_gsub, tag_hvar, tag_mvar,
        tag_os2, tag_vorg, tag_vvar, tag_avar, tag_cmap, tag_fvar, tag_glyf, tag_gvar,
        tag_head, tag_hhea, tag_hmtx, tag_kern, tag_loca, tag_maxp, tag_name, tag_post,
        tag_vhea, tag_vmtx]
      · simp [h]) rs init_raw]
  exact locate_table_bind data rs tag_os2 P.parse_os2

theorem raw_vorg_eq (data : List UInt8) (P : TableParsers HeadT HheaT MaxpT VheaT ω)
    (rs : List TableRecord) :
    (rs.foldl (process_table data P) init_raw).vorg =
      (locate_table data rs tag_vorg).bind P.parse_vorg := by
  rw [foldl_field (process_table data P) (fun r => r.vorg)
    (fun cur t => if t.table_tag = tag_vorg
      then (slice data t.offset (t.offset + t.length)).bind P.parse_vorg else cur)
    (by
      intro acc t
      simp only [process_table, apply_ite RawTables.vorg]
      by_cases h : t.table_tag = tag_vorg
      · simp [h, tag_cff, tag_cff2, tag_gdef, tag_gpos, tag_gsub, tag_hvar, tag_mvar,
        tag_os2, tag_vorg, tag_vvar, tag_avar, tag_cmap, tag_fvar, tag_glyf, tag_gvar,
        tag_head, tag_hhea, tag_hmtx, tag_kern, tag_loca, tag_maxp, tag_name, tag_post,
        tag_vhea, tag_vmtx]
      · simp [h]) rs init_raw]
  exact locate_table_bind data rs tag_vorg P.parse_vorg

theorem raw_vvar_eq (data : List UInt8) (P : TableParsers HeadT HheaT MaxpT VheaT ω)
    (rs : List TableRecord) :
    (rs.foldl (process_table data P) init_raw).vvar = locate_table data rs tag_vvar := by
  rw [foldl_field (process_table data P) (fun r => r.vvar)
    (fun cur t => if t.table_tag = tag_vvar
      then slice data t.offset (t.offset + t.length) else cur)
    (by
      intro acc t
      simp only [process_table, apply_ite RawTables.vvar]
      by_cases h : t.table_tag = tag_vvar
      · simp [h, tag_cff, tag_cff2, tag_gdef, tag_gpos, tag_gsub, tag_hvar, tag_mvar,
        tag_os2, tag_vorg, tag_vvar, tag_avar, tag_cmap, tag_fvar, tag_glyf, tag_gvar,
        tag_head, tag_hhea, tag_hmtx, tag_kern, tag_loca, tag_maxp, tag_name, tag_post,
        tag_vhea, tag_vmtx]
      · simp [h]) rs init_raw]
  exact locate_table_raw data rs tag_vvar

theorem raw_avar_eq (data : List UInt8) (P : TableParsers HeadT HheaT MaxpT VheaT ω)
    (rs : List TableRecord) :
    (rs.foldl (process_table data P) init_raw).avar = locate_table data rs tag_avar := by
  rw [foldl_field (process_table data P) (fun r => r.avar)
    (fun cur t => if t.table_tag = tag_avar
      then slice data t.offset (t.offset + t.length) else cur)
    (by
      intro acc t
      simp only [process_table, apply_ite RawTables.avar]
      by_cases h : t.table_tag = tag_avar
      · simp [h, tag_cff, tag_cff2, tag_gdef, tag_gpos, tag_gsub, tag_hvar, tag_mvar,
        tag_os2, tag_vorg, tag_vvar, tag_avar, tag_cmap, tag_fvar, tag_glyf, tag_gvar,
        tag_head, tag_hhea, tag_hmtx, tag_kern, tag_loca, tag_maxp, tag_name, tag_post,
        tag_vhea, tag_vmtx]
      · simp [h]) rs init_raw]
  exact locate_table_raw data rs tag_avar

theorem raw_cmap_eq (data : List UInt8) (P : TableParsers HeadT HheaT MaxpT VheaT ω)
    (rs : List TableRecord) :
    (rs.foldl (process_table data P) init_raw).cmap =
      (locate_table data rs tag_cmap).bind P.parse_cmap := by
  rw [foldl_field (process_table data P) (fun r => r.cmap)
    (fun cur t => if t.table_tag = tag_cmap
      then (slice data t.offset (t.offset + t.length)).bind P.parse_cmap else cur)
    (by
      intro acc t
      simp only [process_table, apply_ite RawTables.cmap]
      by_cases h : t.table_tag = tag_cmap
      · simp [h, tag_cff, tag_cff2, tag_gdef, tag_gpos, tag_gsub, tag_hvar, tag_mvar,
        tag_os2, tag_vorg, tag_vvar, tag_avar, tag_cmap, tag_fvar, tag_glyf, tag_gvar,
        tag_head, tag_hhea, tag_hmtx, tag_kern, tag_loca, tag_maxp, tag_name, tag_post,
        tag_vhea, tag_vmtx]
      · simp [h]) rs init_raw]
  exact locate_table_bind data rs tag_cmap P.parse_cmap

theorem raw_fvar_eq (data : List UInt8) (P : TableParsers HeadT HheaT MaxpT VheaT ω)
    (rs : List TableRecord) :
    (rs.foldl (process_table data P) init_raw).fvar =
      (locate_table data rs tag_fvar).bind P.parse_fvar := by
  rw [foldl_field (process_table data P) (fun r => r.fvar)
    (fun cur t => if t.table_tag = tag_fvar
      then (slice data t.offset (t.offset + t.length)).bind P.parse_fvar else cur)
    (by
      intro acc t
      simp only [process_table, apply_ite RawTables.fvar]
      by_cases h : t.table_tag = tag_fvar
      · simp [h, tag_cff, tag_cff2, tag_gdef, tag_gpos, tag_gsub, tag_hvar, tag_mvar,
        tag_os2, tag_vorg, tag_vvar, tag_avar, tag_cmap, tag_fvar, tag_glyf, tag_gvar,
        tag_head, tag_hhea, tag_hmtx, tag_kern, tag_loca, tag_maxp, tag_name, tag_post,
        tag_vhea, tag_vmtx]
      · simp [h]) rs init_raw]
  exact locate_table_bind data rs tag_fvar P.parse_fvar

theorem raw_glyf_eq (data : List UInt8) (P : TableParsers HeadT HheaT MaxpT VheaT ω)
    (rs : List TableRecord) :
    (rs.foldl (process_table data P) init_raw).glyf = locate_table data rs tag_glyf := by
  rw [foldl_field (process_table data P) (fun r => r.glyf)
    (fun cur t => if t.table_tag = tag_glyf
      then slice data t.offset (t.offset + t.length) else cur)
    (by
      intro acc t
      simp only [process_table, apply_ite RawTables.glyf]
      by_cases h : t.table_tag = tag_glyf
      · simp [h, tag_cff, tag_cff2, tag_gdef, tag_gpos, tag_gsub, tag_hvar, tag_mvar,
        tag_os2, tag_vorg, tag_vvar, tag_avar, tag_cmap, tag_fvar, tag_glyf, tag_gvar,
        tag_head, tag_hhea, tag_hmtx, tag_kern, tag_loca, tag_maxp, tag_name, tag_post,
        tag_vhea, tag_vmtx]
      · simp [h]) rs init_raw]
  exact locate_table_raw data rs tag_glyf

theorem raw_head_eq (data : List UInt8) (P : TableParsers HeadT HheaT MaxpT VheaT ω)
    (rs : List TableRecord) :
    (rs.foldl (process_table data P) init_raw).head =
      (locate_table data rs tag_head).bind P.parse_head := by
  rw [foldl_field (process_table data P) (fun r => r.head)
    (fun cur t => if t.table_tag = tag_head
      then (slice data t.offset (t.offset + t.length)).bind P.parse_head else cur)
    (by
      intro acc t
      simp only [process_table, apply_ite RawTables.head]
      by_cases h : t.table_tag = tag_head
      · simp [h, tag_cff, tag_cff2, tag_gdef, tag_gpos, tag_gsub, tag_hvar, tag_mvar,
        tag_os2, tag_vorg, tag_vvar, tag_avar, tag_cmap, tag_fvar, tag_glyf, tag_gvar,
        tag_head, tag_hhea, tag_hmtx, tag_kern, tag_loca, tag_maxp, tag_name, tag_post,
        tag_vhea, tag_vmtx]
      · simp [h]) rs init_raw]
  exact locate_table_bind data rs tag_head P.parse_head

theorem raw_hhea_eq (data : List UInt8) (P : TableParsers HeadT HheaT MaxpT VheaT ω)
    (rs : List TableRecord) :
    (rs.foldl (process_table data P) init_raw).hhea =
      (locate_table data rs tag_hhea).bind P.parse_hhea := by
  rw [foldl_field (process_table data P) (fun r => r.hhea)
    (fun cur t => if t.table_tag = tag_hhea
      then (slice data t.offset (t.offset + t.length)).bind P.parse_hhea else cur)
    (by
      intro acc t
      simp only [process_table, apply_ite RawTables.hhea]
      by_cases h : t.table_tag = tag_hhea
      · simp [h, tag_cff, tag_cff2, tag_gdef, tag_gpos, tag_gsub, tag_hvar, tag_mvar,
        tag_os2, tag_vorg, tag_vvar, tag_avar, tag_cmap, tag_fvar, tag_glyf, tag_gvar,
        tag_head, tag_hhea, tag_hmtx, tag_kern, tag_loca, tag_maxp, tag_name, tag_post,
        tag_vhea, tag_vmtx]
      · simp [h]) rs init_raw]
  exact locate_table_bind data rs tag_hhea P.parse_hhea

theorem raw_hmtx_eq (data : List UInt8) (P : TableParsers HeadT HheaT MaxpT VheaT ω)
    (rs : List TableRecord) :
    (rs.foldl (process_table data P) init_raw).hmtx = locate_table data rs tag_hmtx := by
  rw [foldl_field (process_table data P) (fun r => r.hmtx)
    (fun cur t => if t.table_tag = tag_hmtx
      then slice data t.offset (t.offset + t.length) else cur)
    (by
      intro acc t
      simp only [process_table, apply_ite RawTables.hmtx]
      by_cases h : t.table_tag = tag_hmtx
      · simp [h, tag_cff, tag_cff2, tag_gdef, tag_gpos, tag_gsub, tag_hvar, tag_mvar,
        tag_os2, tag_vorg, tag_vvar, tag_avar, tag_cmap, tag_fvar, tag_glyf, tag_gvar,
        tag_head, tag_hhea, tag_hmtx, tag_kern, tag_loca, tag_maxp, tag_name, tag_post,
        tag_vhea, tag_vmtx]
      · simp [h]) rs init_raw]
  exact locate_table_raw data rs tag_hmtx

theorem raw_kern_eq (data : List UInt8) (P : TableParsers HeadT HheaT MaxpT VheaT ω)
    (rs : List TableRecord) :
    (rs.foldl (process_table data P) init_raw).kern = locate_table data rs tag_kern := by
  rw [foldl_field (process_table data P) (fun r => r.kern)
    (fun cur t => if t.table_tag = tag_kern
      then slice data t.offset (t.offset + t.length) else cur)
    (by
      intro acc t
      simp only [process_table, apply_ite RawTables.kern]
      by_cases h : t.table_tag = tag_kern
      · simp [h, tag_cff, tag_cff2, tag_gdef, tag_gpos, tag_gsub, tag_hvar, tag_mvar,
        tag_os2, tag_vorg, tag_vvar, tag_avar, tag_cmap, tag_fvar, tag_glyf, tag_gvar,
        tag_head, tag_hhea, tag_hmtx, tag_kern, tag_loca, tag_maxp, tag_name, tag_post,
        tag_vhea, tag_vmtx]
      · simp [h]) rs init_raw]
  exact locate_table_raw data rs tag_kern

theorem raw_loca_eq (data : List UInt8) (P : TableParsers HeadT HheaT MaxpT VheaT ω)
    (rs : List TableRecord) :
    (rs.foldl (process_table data P) init_raw).loca = locate_table data rs tag_loca := by
  rw [foldl_field (process_table data P) (fun r => r.loca)
    (fun cur t => if t.table_tag = tag_loca
      then slice data t.offset (t.offset + t.length) else cur)
    (by
      intro acc t
      simp only [process_table, apply_ite RawTables.loca]
      by_cases h : t.table_tag = tag_loca
      · simp [h, tag_cff, tag_cff2, tag_gdef, tag_gpos, tag_gsub, tag_hvar, tag_mvar,
        tag_os2, tag_vorg, tag_vvar, tag_avar, tag_cmap, tag_fvar, tag_glyf, tag_gvar,
        tag_head, tag_hhea, tag_hmtx, tag_kern, tag_loca, tag_maxp, tag_name, tag_post,
        tag_vhea, tag_vmtx]
      · simp [h]) rs init_raw]
  exact locate_table_raw data rs tag_loca

theorem raw_maxp_eq (data : List UInt8) (P : TableParsers HeadT HheaT MaxpT VheaT ω)
    (rs : List TableRecord) :
    (rs.foldl (process_table data P) init_raw).maxp =
      (locate_table data rs tag_maxp).bind P.parse_maxp := by
  rw [foldl_field (process_table data P) (fun r => r.maxp)
    (fun cur t => if t.table_tag = tag_maxp
      then (slice data t.offset (t.offset + t.length)).bind P.parse_maxp else cur)
    (by
      intro acc t
      simp only [process_table, apply_ite RawTables.maxp]
      by_cases h : t.table_tag = tag_maxp
      · simp [h, tag_cff, tag_cff2, tag_gdef, tag_gpos, tag_gsub, tag_hvar, tag_mvar,
        tag_os2, tag_vorg, tag_vvar, tag_avar, tag_cmap, tag_fvar, tag_glyf, tag_gvar,
        tag_head, tag_hhea, tag_hmtx, tag_kern, tag_loca, tag_maxp, tag_name, tag_post,
        tag_vhea, tag_vmtx]
      · simp [h]) rs init_raw]
  exact locate_table_bind data rs tag_maxp P.parse_maxp

theorem raw_name_eq (data : List UInt8) (P : TableParsers HeadT HheaT MaxpT VheaT ω)
    (rs : List TableRecord) :
    (rs.foldl (process_table data P) init_raw).name =
      (locate_table data rs tag_name).bind P.parse_name := by
  rw [foldl_field (process_table data P) (fun r => r.name)
    (fun cur t => if t.table_tag = tag_name
      then (slice data t.offset (t.offset + t.length)).bind P.parse_name else cur)
    (by
      intro acc t
      simp only [process_table, apply_ite RawTables.name]
      by_cases h : t.table_tag = tag_name
      · simp [h, tag_cff, tag_cff2, tag_gdef, tag_gpos, tag_gsub, tag_hvar, tag_mvar,
        tag_os2, tag_vorg, tag_vvar, tag_avar, tag_cmap, tag_fvar, tag_glyf, tag_gvar,
        tag_head, tag_hhea, tag_hmtx, tag_kern, tag_loca, tag_maxp, tag_name, tag_post,
        tag_vhea, tag_vmtx]
      · simp [h]) rs init_raw]
  exact locate_table_bind data rs tag_name P.parse_name

theorem raw_post_eq (data : List UInt8) (P : TableParsers HeadT HheaT MaxpT VheaT ω)
    (rs : List TableRecord) :
    (rs.foldl (process_table data P) init_raw).post =
      (locate_table data rs tag_post).bind P.parse_post := by
  rw [foldl_field (process_table data P) (fun r => r.post)
    (fun cur t => if t.table_tag = tag_post
      then (slice data t.offset (t.offset + t.length)).bind P.parse_post else cur)
    (by
      intro acc t
      simp only [process_table, apply_ite RawTables.post]
      by_cases h : t.table_tag = tag_post
      · simp [h, tag_cff, tag_cff2, tag_gdef, tag_gpos, tag_gsub, tag_hvar, tag_mvar,
        tag_os2, tag_vorg, tag_vvar, tag_avar, tag_cmap, tag_fvar, tag_glyf, tag_gvar,
        tag_head, tag_hhea, tag_hmtx, tag_kern, tag_loca, tag_maxp, tag_name, tag_post,
        tag_vhea, tag_vmtx]
      · simp [h]) rs init_raw]
  exact locate_table_bind data rs tag_post P.parse_post

theorem raw_vhea_eq (data : List UInt8) (P : TableParsers HeadT HheaT MaxpT VheaT ω)
    (rs : List TableRecord) :
    (rs.foldl (process_table data P) init_raw).vhea =
      (locate_table data rs tag_vhea).bind P.parse_vhea := by
  rw [foldl_field (process_table data P) (fun r => r.vhea)
    (fun cur t => if t.table_tag = tag_vhea
      then (slice data t.offset (t.offset + t.length)).bind P.parse_vhea else cur)
    (by
      intro acc t
      simp only [process_table, apply_ite RawTables.vhea]
      by_cases h : t.table_tag = tag_vhea
      · simp [h, tag_cff, tag_cff2, tag_gdef, tag_gpos, tag_gsub, tag_hvar, tag_mvar,
        tag_os2, tag_vorg, tag_vvar, tag_avar, tag_cmap, tag_fvar, tag_glyf, tag_gvar,
        tag_head, tag_hhea, tag_hmtx, tag_kern, tag_loca, tag_maxp, tag_name, tag_post,
        tag_vhea, tag_vmtx]
      · simp [h]) rs init_raw]
  exact locate_table_bind data rs tag_vhea P.parse_vhea

theorem raw_vmtx_eq (data : List UInt8) (P : TableParsers HeadT HheaT MaxpT VheaT ω)
    (rs : List TableRecord) :
    (rs.foldl (process_table data P) init_raw).vmtx = locate_table data rs tag_vmtx := by
  rw [foldl_field (process_table data P) (fun r => r.vmtx)
    (fun cur t => if t.table_tag = tag_vmtx
      then slice data t.offset (t.offset + t.length) else cur)
    (by
      intro acc t
      simp only [process_table, apply_ite RawTables.vmtx]
      by_cases h : t.table_tag = tag_vmtx
      · simp [h, tag_cff, tag_cff2, tag_gdef, tag_gpos, tag_gsub, tag_hvar, tag_mvar,
        tag_os2, tag_vorg, tag_vvar, tag_avar, tag_cmap, tag_fvar, tag_glyf, tag_gvar,
        tag_head, tag_hhea, tag_hmtx, tag_kern, tag_loca, tag_maxp, tag_name, tag_post,
        tag_vhea, tag_vmtx]
      · simp [h]) rs init_raw]
  exact locate_table_raw data rs tag_vmtx

/-- C3: construction succeeds exactly when the offset table can be read
with an accepted magic value and each of the three mandatory tables
(head, hhea, maxp) is located and parses — for every behaviour of the
optional-table parsers; and on a constructed font, has_table for every
optional table reports exactly whether the last matching record's data
was in the buffer and parsed. -/
theorem from_data_success_iff_mandatory {HeadT HheaT MaxpT VheaT ω : Type}
    (P : TableParsers HeadT HheaT MaxpT VheaT ω) (data : List UInt8) (index : ℕ) :
    ((from_data P data index).isSome = mandatory_tables_ok P data index) ∧
    (∀ font, from_data P data index = some font →
      ∀ name, font.has_table name = spec_table_present P data index name) := by
  constructor
  · simp only [from_data, mandatory_tables_ok]
    cases h1 : select_table_data data index with
    | none => rfl
    | some td =>
      by_cases h2 : data.length < 12
      · simp [h2]
      · simp only [if_neg h2]
        cases h3 : read_offset_table td with
        | none => rfl
        | some tables =>
          simp only [raw_head_eq data P tables, raw_hhea_eq data P tables,
            raw_maxp_eq data P tables]
          cases (locate_table data tables tag_head).bind P.parse_head with
          | none => simp
          | some headv =>
            cases (locate_table data tables tag_hhea).bind P.parse_hhea with
            | none => simp
            | some hheav =>
              cases (locate_table data tables tag_maxp).bind P.parse_maxp with
              | none => simp
              | some maxpv => simp
  · intro font hfont name
    simp only [from_data] at hfont
    cases h1 : select_table_data data index with
    | none => simp [h1] at hfont
    | some td =>
      simp only [h1] at hfont
      by_cases h2 : data.length < 12
      · simp [h2] at hfont
      · simp only [if_neg h2] at hfont
        cases h3 : read_offset_table td with
        | none => simp [h3] at hfont
        | some tables =>
          simp only [h3] at hfont
          simp only [raw_head_eq data P tables, raw_hhea_eq data P tables,
            raw_maxp_eq data P tables, raw_cff_eq data P tables,
            raw_cff2_eq data P tables, raw_gdef_eq data P tables,
            raw_gpos_eq data P tables, raw_gsub_eq data P tables,
            raw_hvar_eq data P tables, raw_gvar_eq data P tables,
            raw_mvar_eq data P tables, raw_os2_eq data P tables,
            raw_vorg_eq data P tables, raw_vvar_eq data P tables,
            raw_avar_eq data P tables, raw_cmap_eq data P tables,
            raw_fvar_eq data P tables, raw_glyf_eq data P tables,
            raw_hmtx_eq data P tables, raw_kern_eq data P tables,
            raw_loca_eq data P tables, raw_name_eq data P tables,
            raw_post_eq data P tables, raw_vhea_eq data P tables,
            raw_vmtx_eq data P tables] at hfont
          cases h4 : (locate_table data tables tag_head).bind P.parse_head with
          | none => simp [h4] at hfont
          | some headv =>
            simp only [h4] at hfont
            cases h5 : (locate_table data tables tag_hhea).bind P.parse_hhea with
            | none => simp [h5] at hfont
            | some hheav =>
              simp only [h5] at hfont
              cases h6 : (locate_table data tables tag_maxp).bind P.parse_maxp with
              | none => simp [h6] at hfont
              | some maxpv =>
                simp only [h6] at hfont
                have hb := Option.some.inj hfont
                subst hb
                clear hfont
                cases name <;>
                  simp only [Font.has_table, spec_table_present, h1, h3,
                    if_neg h2, h4, h5, h6] <;>
                  (repeat' split) <;>
                  (first | rfl | simp_all)

end FromDataProofs

theorem getD_take_lt (l : List UInt8) (n i : ℕ) (h : i < n) :
    (l.take n).getD i 0 = l.getD i 0 := by
  simp [List.getD_eq_getElem?_getD, List.getElem?_take, h]

/-- A concrete parser bundle that accepts every byte slice, used to
witness the construction theorem. -/
def trivial_parsers : TableParsers Unit Unit Unit Unit Unit where
  parse_cff := fun _ => some ()
  parse_cff2 := fun _ => some ()
  parse_gdef := fun _ => some ()
  parse_ggg := fun _ => some ()
  parse_os2 := fun _ => some ()
  parse_vorg := fun _ => some ()
  parse_cmap := fun _ => some ()
  parse_fvar := fun _ => some ()
  parse_gvar := fun _ => some ()
  parse_head := fun _ => some ()
  parse_hhea := fun _ => some ()
  parse_maxp := fun _ => some ()
  parse_name := fun _ => some ()
  parse_post := fun _ => some ()
  parse_vhea := fun _ => some ()
  parse_hmtx := fun _ _ _ => some ()
  parse_loca := fun _ _ _ => some ()
  number_of_h_metrics := fun _ => some 0
  num_of_long_ver_metrics := fun _ => some 0
  index_to_loc_format := fun _ => 0
  maxp_number_of_glyphs := fun _ => 1

/-- A 60-byte font: TrueType magic, three directory records (head,
hhea, maxp) with empty byte ranges. -/
def sample_font_bytes : List UInt8 :=
  [0, 1, 0, 0, 0, 3, 0, 0, 0, 0, 0, 0] ++
  [0x68, 0x65, 0x61, 0x64, 0, 0, 0, 0, 0, 0, 0, 0, 0, 0, 0, 0] ++
  [0x68, 0x68, 0x65, 0x61, 0, 0, 0, 0, 0, 0, 0, 0, 0, 0, 0, 0] ++
  [0x6D, 0x61, 0x78, 0x70, 0, 0, 0, 0, 0, 0, 0, 0, 0, 0, 0, 0]

/-- C3 witnessed on a concrete font carrying exactly the mandatory
tables: construction succeeds, agrees with the spec-side condition, and
has_table answers for an optional table follow the spec-side
recomputation through the theorem's second part. -/
theorem from_data_success_iff_mandatory_witness :
    mandatory_tables_ok trivial_parsers sample_font_bytes 0 = true ∧
    (from_data trivial_parsers sample_font_bytes 0).isSome = true ∧
    (from_data trivial_parsers sample_font_bytes 0).map
        (fun font => font.has_table TableName.CharacterToGlyphIndexMapping) =
      some (spec_table_present trivial_parsers sample_font_bytes 0
        TableName.CharacterToGlyphIndexMapping) := by
  refine ⟨by decide, by decide, ?_⟩
  cases hf : from_data trivial_parsers sample_font_bytes 0 with
  | none =>
    have hs : (from_data trivial_parsers sample_font_bytes 0).isSome = true := by decide
    rw [hf] at hs
    exact absurd hs (by simp)
  | some font =>
    have h := (from_data_success_iff_mandatory trivial_parsers sample_font_bytes 0).2
      font hf TableName.CharacterToGlyphIndexMapping
    simp [h]

/-- The claim's collection header: 'ttcf', version 1.0, numFonts
0xFFFFFFFF, and nothing else. -/
def font_collection_header : List UInt8 :=
  [0x74, 0x74, 0x63, 0x66, 0, 1, 0, 0, 0xFF, 0xFF, 0xFF, 0xFF]

/-- C7: fonts_in_collection returns the big-endian numFonts field
exactly when the buffer is at least 12 bytes long and starts with
'ttcf', and absent otherwise; on the concrete header with numFonts
0xFFFFFFFF it returns 0xFFFFFFFF although Font::from_data returns
absent on that buffer for every index and every parser bundle. -/
theorem fonts_in_collection_spec :
    (∀ data : List UInt8,
      fonts_in_collection data =
        if 12 ≤ data.length ∧ data.take 4 = ttcf_tag_bytes
        then some (be32_at data 8) else none) ∧
    fonts_in_collection font_collection_header = some 4294967295 ∧
    (∀ (HeadT HheaT MaxpT VheaT ω : Type) (P : TableParsers HeadT HheaT MaxpT VheaT ω)
      (index : ℕ), from_data P font_collection_header index = none) := by
  refine ⟨?_, by decide, ?_⟩
  · intro data
    simp only [fonts_in_collection, slice]
    by_cases h : 12 ≤ data.length
    · rw [if_pos ⟨by omega, h⟩]
      show (if List.take 4 (List.take (12 - 0) (List.drop 0 data)) = ttcf_tag_bytes
          then some (be32_at (List.take (12 - 0) (List.drop 0 data)) 8) else none) = _
      simp only [Nat.sub_zero, List.drop_zero]
      have ht : (List.take 12 data).take 4 = data.take 4 := by
        rw [List.take_take]
        norm_num
      have hb : be32_at (List.take 12 data) 8 = be32_at data 8 := by
        unfold be32_at
        rw [getD_take_lt data 12 8 (by omega), getD_take_lt data 12 9 (by omega),
          getD_take_lt data 12 10 (by omega), getD_take_lt data 12 11 (by omega)]
      rw [ht, hb]
      by_cases htag : data.take 4 = ttcf_tag_bytes
      · simp [htag, h]
      · simp [htag]
    · rw [if_neg (by omega)]
      simp [h]
  · intro HeadT HheaT MaxpT VheaT ω P index
    have hsel : select_table_data font_collection_header index = none := by
      simp only [select_table_data,
        show fonts_in_collection font_collection_header = some 4294967295 by decide]
      by_cases hidx : index < 4294967295
      · simp only [if_pos hidx]
        have hg : font_collection_header.get? (0 + (12 + 4 * index)) = none := by
          rw [List.get?_eq_none]
          show (12 : ℕ) ≤ 0 + (12 + 4 * index)
          omega
        simp only [Stream.read_u32, Stream.read_u16, Stream.new, Stream.advance, hg]
      · simp [hidx]
    simp [from_data, hsel]

/-! ### The second region evaluator (tables/mvar.rs, evaluate_region) -/

/-- One RegionAxisCoordinatesRecord read from the stream (FromData for
the 6-byte record: three big-endian i16 values). -/
def read_region_record (s : Stream) : Option (RegionAxisCoordinatesRecord × Stream) :=
  match s.read_i16 with
  | none => none
  | some (start, s1) =>
    match s1.read_i16 with
    | none => none
    | some (peak, s2) =>
      match s2.read_i16 with
      | none => none
      | some (endc, s3) => some (⟨start, peak, endc⟩, s3)

/-- The per-axis loop of evaluate_region in tables/mvar.rs: axis_count
iterations, each reading the next record from the stream and
substituting coordinate 0 for a missing entry. -/
def mvar_eval_loop (coordinates : List ℤ) : ℕ → ℕ → Stream → ℚ → Option ℚ
  | 0, _, _, v => some v
  | k + 1, i, s, v =>
    match read_region_record s with
    | none => none
    | some (record, s1) =>
      let coord := coordinates.getD i 0
      let factor := evaluate_axis record.start_coord record.peak_coord
        record.end_coord coord
      if factor = 0 then some 0
      else mvar_eval_loop coordinates k (i + 1) s1 (v * factor)

/-- evaluate_region from tables/mvar.rs: read axis_count, skip
region_count, advance index * axis_count records into the list and take
the product of the tents (absent when the region list is truncated). -/
def mvar_evaluate_region (index : ℕ) (coordinates : List ℤ) (s : Stream) : Option ℚ :=
  match s.read_u16 with
  | none => none
  | some (axis_count, s1) =>
    let s2 := (s1.advance 2).advance (index * axis_count * 6)
    mvar_eval_loop coordinates axis_count 0 s2 1

/-- Big-endian byte encoding of a u16. -/
def encode_u16 (n : ℕ) : List UInt8 := [UInt8.ofNat (n / 256), UInt8.ofNat (n % 256)]

/-- Big-endian two's-complement encoding of an i16. -/
def encode_i16 (z : ℤ) : List UInt8 := encode_u16 (z % 65536).toNat

/-- The 6-byte encoding of a region axis record. -/
def encode_region (r : RegionAxisCoordinatesRecord) : List UInt8 :=
  encode_i16 r.start_coord ++ encode_i16 r.peak_coord ++ encode_i16 r.end_coord

/-- Concatenated record encodings. -/
def encode_regions : List RegionAxisCoordinatesRecord → List UInt8
  | [] => []
  | r :: rest => encode_region r ++ encode_regions rest

/-- The byte image of a variation region list header followed by its
records, as both evaluators consume it. -/
def encode_region_list (axis_count region_count : ℕ)
    (regions : List RegionAxisCoordinatesRecord) : List UInt8 :=
  encode_u16 axis_count ++ encode_u16 region_count ++ encode_regions regions

/-- C9 counterexample: on the one-axis region list with the single
record (1, 2, 3) and the empty coordinate vector, the var_store
evaluator returns weight 1 (it never looks at the region), while the
mvar evaluator substitutes coordinate 0 for the missing axis and
returns weight 0. -/
theorem evaluate_region_mismatch_counterexample :
    mvar_evaluate_region 0 []
        (Stream.new (encode_region_list 1 1 [⟨1, 2, 3⟩])) = some 0 ∧
    VariationRegionList.evaluate_region ⟨1, [⟨1, 2, 3⟩]⟩ 0 [] = 1 ∧
    (0 : ℚ) ≠ 1 := by
  refine ⟨?_, ?_, ?_⟩ <;> with_unfolding_all decide

theorem toNat_ofNat8 (n : ℕ) : (UInt8.ofNat n).toNat = n % 256 := rfl

theorem encode_region_length (r : RegionAxisCoordinatesRecord) :
    (encode_region r).length = 6 := rfl

theorem encode_regions_append (a b : List RegionAxisCoordinatesRecord) :
    encode_regions (a ++ b) = encode_regions a ++ encode_regions b := by
  induction a with
  | nil => rfl
  | cons r rest ih => simp [encode_regions, ih]

theorem encode_regions_length (l : List RegionAxisCoordinatesRecord) :
    (encode_regions l).length = 6 * l.length := by
  induction l with
  | nil => rfl
  | cons r rest ih =>
    simp only [encode_regions, List.length_append, encode_region_length, ih,
      List.length_cons]
    ring

theorem decode_u16 (n : ℕ) (h : n ≤ 65535) :
    (UInt8.ofNat (n / 256)).toNat * 256 + (UInt8.ofNat (n % 256)).toNat = n := by
  rw [toNat_ofNat8, toNat_ofNat8]
  omega

theorem decode_i16 (z : ℤ) (h : inI16 z) :
    toSigned16 ((UInt8.ofNat ((z % 65536).toNat / 256)).toNat * 256 +
      (UInt8.ofNat ((z % 65536).toNat % 256)).toNat) = z := by
  obtain ⟨ha, hb⟩ := h
  rw [toNat_ofNat8, toNat_ofNat8]
  have hz0 : (0 : ℤ) ≤ z % 65536 := Int.emod_nonneg z (by norm_num)
  have hz1 : z % 65536 < 65536 := Int.emod_lt_of_pos z (by norm_num)
  have hm6 : (z % 65536).toNat < 65536 := by omega
  have hexp : (z % 65536).toNat / 256 % 256 * 256 + (z % 65536).toNat % 256 % 256 =
      (z % 65536).toNat := by omega
  rw [hexp]
  unfold toSigned16
  split_ifs with hlt
  · omega
  · omega

theorem read_u16_at (pre rest : List UInt8) (x y : UInt8) :
    Stream.read_u16 ⟨pre ++ (x :: y :: rest), pre.length⟩ =
      some (x.toNat * 256 + y.toNat, ⟨pre ++ (x :: y :: rest), pre.length + 2⟩) := by
  unfold Stream.read_u16
  have h0 : (pre ++ (x :: y :: rest)).get? pre.length = some x := by
    rw [List.get?_append_right le_rfl, Nat.sub_self]
    rfl
  have h1 : (pre ++ (x :: y :: rest)).get? (pre.length + 1) = some y := by
    rw [List.get?_append_right (by omega)]
    have he : pre.length + 1 - pre.length = 1 := by omega
    rw [he]
    rfl
  rw [h0, h1]

theorem read_i16_encode (pre rest : List UInt8) (z : ℤ) (h : inI16 z) :
    Stream.read_i16 ⟨pre ++ (encode_i16 z ++ rest), pre.length⟩ =
      some (z, ⟨pre ++ (encode_i16 z ++ rest), pre.length + 2⟩) := by
  have hc : encode_i16 z ++ rest = UInt8.ofNat ((z % 65536).toNat / 256) ::
      UInt8.ofNat ((z % 65536).toNat % 256) :: rest := rfl
  rw [hc]
  simp only [Stream.read_i16, read_u16_at, decode_i16 z h]

theorem read_region_record_encode (pre suf : List UInt8)
    (r : RegionAxisCoordinatesRecord) (h1 : inI16 r.start_coord)
    (h2 : inI16 r.peak_coord) (h3 : inI16 r.end_coord) :
    read_region_record ⟨pre ++ (encode_region r ++ suf), pre.length⟩ =
      some (r, ⟨pre ++ (encode_region r ++ suf), pre.length + 6⟩) := by
  have e1 := read_i16_encode pre
    (encode_i16 r.peak_coord ++ (encode_i16 r.end_coord ++ suf)) r.start_coord h1
  have e2 := read_i16_encode (pre ++ encode_i16 r.start_coord)
    (encode_i16 r.end_coord ++ suf) r.peak_coord h2
  have e3 := read_i16_encode
    (pre ++ encode_i16 r.start_coord ++ encode_i16 r.peak_coord) suf r.end_coord h3
  have hassoc1 : pre ++ (encode_i16 r.start_coord ++
      (encode_i16 r.peak_coord ++ (encode_i16 r.end_coord ++ suf))) =
      pre ++ (encode_region r ++ suf) := by
    simp [encode_region]
  have hassoc2 : (pre ++ encode_i16 r.start_coord) ++
      (encode_i16 r.peak_coord ++ (encode_i16 r.end_coord ++ suf)) =
      pre ++ (encode_region r ++ suf) := by
    simp [encode_region]
  have hassoc3 : (pre ++ encode_i16 r.start_coord ++ encode_i16 r.peak_coord) ++
      (encode_i16 r.end_coord ++ suf) = pre ++ (encode_region r ++ suf) := by
    simp [encode_region]
  have hl2 : (pre ++ encode_i16 r.start_coord).length = pre.length + 2 := by
    simp [encode_i16, encode_u16]
  have hl3 : (pre ++ encode_i16 r.start_coord ++ encode_i16 r.peak_coord).length =
      pre.length + 4 := by
    simp [encode_i16, encode_u16]
  rw [hassoc1] at e1
  rw [hassoc2, hl2] at e2
  rw [hassoc3, hl3] at e3
  rw [show pre.length + 2 + 2 = pre.length + 4 from by omega] at e2
  rw [show pre.length + 4 + 2 = pre.length + 6 from by omega] at e3
  simp only [read_region_record, e1, e2, e3]

/-- C9 amended: the two evaluators agree whenever the coordinate vector
has exactly axis_count entries and the addressed region lies inside the
record array: the mvar evaluator on the encoded region list returns
exactly the weight the var_store evaluator computes. -/
theorem evaluate_region_agree (axis_count region_count : ℕ)
    (regions : List RegionAxisCoordinatesRecord) (index : ℕ) (coords : List ℤ)
    (hax : axis_count ≤ 65535)
    (hlen : regions.length ≤ 65535)
    (hrange : ∀ r ∈ regions,
      inI16 r.start_coord ∧ inI16 r.peak_coord ∧ inI16 r.end_coord)
    (hidx : (index + 1) * axis_count ≤ regions.length)
    (hc : coords.length = axis_count) :
    mvar_evaluate_region index coords
        (Stream.new (encode_region_list axis_count region_count regions)) =
      some (VariationRegionList.evaluate_region ⟨axis_count, regions⟩ index coords) := by
  have hmul : (index + 1) * axis_count = index * axis_count + axis_count := by ring
  have hm0 : index * axis_count ≤ regions.length := by omega
  have key : ∀ (cs : List ℤ) (i : ℕ) (v : ℚ) (pre : List UInt8),
      i + cs.length = axis_count →
      coords.drop i = cs →
      pre.length = 4 + 6 * (index * axis_count + i) →
      mvar_eval_loop coords cs.length i
          ⟨pre ++ encode_regions (regions.drop (index * axis_count + i)), pre.length⟩ v =
        some (vrl_loop ⟨axis_count, regions⟩ index cs i v) := by
    intro cs
    induction cs with
    | nil =>
      intro i v pre hik hdrop hpre
      rfl
    | cons c cs' ih =>
      intro i v pre hik hdrop hpre
      simp only [List.length_cons] at hik
      have hi : i < coords.length := by omega
      have hm : index * axis_count + i < regions.length := by omega
      have hdropm := List.drop_eq_getElem_cons hm
      have hr := hrange (regions[index * axis_count + i]) (List.getElem_mem hm)
      have hgi := List.drop_eq_getElem_cons hi
      rw [hdrop] at hgi
      injection hgi with hc1 hc2
      rw [hdropm]
      show mvar_eval_loop coords (cs'.length + 1) i
          ⟨pre ++ (encode_region (regions[index * axis_count + i]) ++
            encode_regions (regions.drop (index * axis_count + i + 1))), pre.length⟩ v = _
      simp only [mvar_eval_loop,
        read_region_record_encode pre
          (encode_regions (regions.drop (index * axis_count + i + 1)))
          (regions[index * axis_count + i]) hr.1 hr.2.1 hr.2.2]
      rw [List.getD_eq_getElem coords 0 hi]
      have hmod : (index * axis_count + i) % 65536 =
          index * axis_count + i := Nat.mod_eq_of_lt (by omega)
      have hget : regions.get? (index * axis_count + i) =
          some (regions[index * axis_count + i]) := by
        rw [List.get?_eq_getElem?, List.getElem?_eq_getElem hm]
      simp only [vrl_loop, hmod, hget]
      subst hc1
      by_cases hf : evaluate_axis (regions[index * axis_count + i]).start_coord
          (regions[index * axis_count + i]).peak_coord
          (regions[index * axis_count + i]).end_coord coords[i] = 0
      · simp [hf]
      · simp only [if_neg hf]
        have happ := ih (i + 1)
          (v * evaluate_axis (regions[index * axis_count + i]).start_coord
            (regions[index * axis_count + i]).peak_coord
            (regions[index * axis_count + i]).end_coord coords[i])
          (pre ++ encode_region (regions[index * axis_count + i]))
          (by omega)
          (by rw [hc2])
          (by
            rw [List.length_append, encode_region_length, hpre]
            ring)
        rw [show index * axis_count + (i + 1) = index * axis_count + i + 1 from by omega]
          at happ
        rw [List.append_assoc] at happ
        rw [show (pre ++ encode_region (regions[index * axis_count + i])).length =
            pre.length + 6 from by
          rw [List.length_append, encode_region_length]] at happ
        exact happ
  have hread : Stream.read_u16
      (Stream.new (encode_region_list axis_count region_count regions)) =
      some (axis_count,
        ⟨encode_region_list axis_count region_count regions, 2⟩) := by
    have hu := read_u16_at []
      (encode_u16 region_count ++ encode_regions regions)
      (UInt8.ofNat (axis_count / 256)) (UInt8.ofNat (axis_count % 256))
    simp only [List.nil_append, List.length_nil] at hu
    have hBc : encode_region_list axis_count region_count regions =
        UInt8.ofNat (axis_count / 256) :: UInt8.ofNat (axis_count % 256) ::
          (encode_u16 region_count ++ encode_regions regions) := by
      simp [encode_region_list, encode_u16]
    rw [show Stream.new (encode_region_list axis_count region_count regions) =
        ⟨encode_region_list axis_count region_count regions, 0⟩ from rfl]
    rw [hBc, hu, decode_u16 axis_count hax]
  have hPRElen : (encode_u16 axis_count ++ (encode_u16 region_count ++
      encode_regions (regions.take (index * axis_count)))).length =
      4 + 6 * (index * axis_count + 0) := by
    simp only [List.length_append, encode_regions_length, List.length_take,
      encode_u16, List.length_cons, List.length_nil]
    rw [Nat.min_eq_left hm0]
    ring
  have hBsplit : encode_region_list axis_count region_count regions =
      (encode_u16 axis_count ++ (encode_u16 region_count ++
        encode_regions (regions.take (index * axis_count)))) ++
        encode_regions (regions.drop (index * axis_count)) := by
    unfold encode_region_list
    rw [show encode_regions regions =
        encode_regions (regions.take (index * axis_count)) ++
          encode_regions (regions.drop (index * axis_count)) from by
      rw [← encode_regions_append, List.take_append_drop]]
    simp [List.append_assoc]
  have hkey := key coords 0 1
    (encode_u16 axis_count ++ (encode_u16 region_count ++
      encode_regions (regions.take (index * axis_count))))
    (by omega) (by simp) hPRElen
  rw [hc] at hkey
  rw [Nat.add_zero] at hkey
  rw [← hBsplit] at hkey
  rw [show (encode_u16 axis_count ++ (encode_u16 region_count ++
      encode_regions (regions.take (index * axis_count)))).length =
      2 + 2 + index * axis_count * 6 from by
    rw [hPRElen]
    ring] at hkey
  unfold mvar_evaluate_region
  simp only [hread]
  simp only [Stream.advance, VariationRegionList.evaluate_region]
  exact hkey

/-- C9 amended, witnessed on a two-axis region list with one region,
region index 0, and a full coordinate vector: the mvar evaluator on the
encoded bytes returns exactly the var_store weight. -/
theorem evaluate_region_agree_witness :
    ((2 : ℕ) ≤ 65535 ∧
      ([(⟨0, 1, 2⟩ : RegionAxisCoordinatesRecord), ⟨0, 1, 2⟩]).length ≤ 65535 ∧
      (∀ r ∈ [(⟨0, 1, 2⟩ : RegionAxisCoordinatesRecord), ⟨0, 1, 2⟩],
        inI16 r.start_coord ∧ inI16 r.peak_coord ∧ inI16 r.end_coord) ∧
      (0 + 1) * 2 ≤ ([(⟨0, 1, 2⟩ : RegionAxisCoordinatesRecord), ⟨0, 1, 2⟩]).length ∧
      ([1, 1] : List ℤ).length = 2) ∧
    mvar_evaluate_region 0 [1, 1]
        (Stream.new (encode_region_list 2 1 [⟨0, 1, 2⟩, ⟨0, 1, 2⟩])) =
      some (VariationRegionList.evaluate_region ⟨2, [⟨0, 1, 2⟩, ⟨0, 1, 2⟩]⟩ 0 [1, 1]) :=
  ⟨⟨by decide, by decide, by decide, by decide, by decide⟩,
   evaluate_region_agree 2 1 [⟨0, 1, 2⟩, ⟨0, 1, 2⟩] 0 [1, 1]
     (by decide) (by decide) (by decide) (by decide) (by decide)⟩

end TtfParser
